import Mathlib

/-!
Verification of the tracking-queue store (`br2_vision/data_structure/tracking_data.py`).

We give a shallow embedding of the module: the `FlowQueue` dataclass, its
dynamic attribute validation (`__setattr__`), its equality, the fixed binary
row schema, and the `TrackingData` store with its context-guarded operations
over an HDF5 container modelled as explicit state.  Python exceptions are
modelled with `Except Fault`; an `.error` outcome corresponds to the Python
call raising, in which case the caller's state is the unchanged input state.
-/

namespace BR2

/-- The Python exception classes that the module can raise, plus the generic
`Exception` raised by the context guard (`raise_if_outside_context`). -/
inductive Fault where
  | typeFault        -- TypeError
  | assertionFault   -- AssertionError (failed `assert`)
  | attributeFault   -- AttributeError (mutating a static field)
  | lifecycleFault   -- Exception("This method should be called from inside context.")
  | keyFault         -- KeyError (missing h5 group/dataset)
  | overflowFault    -- OverflowError (int out of range for an i4 column)
  | unicodeFault     -- UnicodeEncodeError / UnicodeDecodeError
  | valueFault       -- ValueError (e.g. negative dimensions in np.full)
deriving DecidableEq, Repr

/-! ## FlowQueue -/

/-- `FlowQueue` dataclass: point, start_frame, end_frame, camera, z_index,
label, done.  Python `int` is unbounded, so integer fields are `Int`. -/
structure FlowQueue where
  point : Int × Int
  start_frame : Int
  end_frame : Int
  camera : Int
  z_index : Int
  label : String
  done : Bool := false
deriving DecidableEq, Repr

/-- `FlowQueue.__eq__`: compares point, start_frame, end_frame, camera,
z_index and label; `done` does not participate. -/
def FlowQueue.eq (self other : FlowQueue) : Bool :=
  self.point.1 == other.point.1 &&
  self.point.2 == other.point.2 &&
  self.start_frame == other.start_frame &&
  self.end_frame == other.end_frame &&
  self.camera == other.camera &&
  self.z_index == other.z_index &&
  self.label == other.label

/-- `FlowQueue.get_tag`: the f-string `z{z_index}-{label}`. -/
def FlowQueue.get_tag (q : FlowQueue) : String :=
  "z" ++ toString q.z_index ++ "-" ++ q.label

/-- `FlowQueue.h5_directory`: the f-string
`/trajectory/camera_{camera}/z_{z_index}/label_{label}`.  `point` is not used. -/
def FlowQueue.h5_directory (q : FlowQueue) : String :=
  "/trajectory/camera_" ++ toString q.camera ++ "/z_" ++ toString q.z_index ++
    "/label_" ++ q.label

/-! ## HDF5 container model

The container file holds the resizable `queues` record table and one
trajectory dataset per h5 path.  A trajectory dataset has shape `(n, 2)` and
integer dtype, modelled as `List (Int × Int)`; its `unit = "pixel"` attribute
carries no information and is not modelled.  The marker-position blob is an
opaque external collaborator (spec excludes it), modelled as `Unit`. -/

/-- One row of the persisted `queues` table, dtype
`[(point, i4, (2,)), (start_frame, i4), (end_frame, i4), (camera, i4),
(z_index, i4), (label, S10), (done, ?)]`.  The `label` column is the raw
10-byte cell content. -/
structure Row where
  point : Int × Int
  start_frame : Int
  end_frame : Int
  camera : Int
  z_index : Int
  label : List Nat
  done : Bool
deriving DecidableEq, Repr

/-- The h5 container: the `queues` table and the trajectory datasets keyed by
their full h5 path (group path plus `/` plus dataset prefix). -/
structure H5File where
  queuesTable : List Row
  trajs : List (String × List (Int × Int))
deriving DecidableEq, Repr

/-- Look up the trajectory dataset at a full h5 path. -/
def H5File.findTraj (h5 : H5File) (p : String) : Option (List (Int × Int)) :=
  (h5.trajs.find? (fun e => e.1 == p)).map (·.2)

/-- Store a trajectory dataset at a full h5 path (replace if present,
create the group/dataset otherwise). -/
def H5File.setTraj (h5 : H5File) (p : String) (d : List (Int × Int)) : H5File :=
  { h5 with
    trajs :=
      if h5.trajs.any (fun e => e.1 == p) then
        h5.trajs.map (fun e => if e.1 == p then (p, d) else e)
      else
        h5.trajs ++ [(p, d)] }

/-! ## TrackingData store -/

/-- In-memory state of a `TrackingData` object: the ordered queue collection
and the `_inside_context` guard flag.  (`path` is implicit: the container the
store addresses is passed as explicit `H5File` state; `marker_positions` is
the opaque external blob.) -/
structure TrackingData where
  queues : List FlowQueue
  insideContext : Bool
  markerPositions : Unit := ()
deriving DecidableEq, Repr

/-- `TrackingData.append`: context-guarded upsert.  If a queue equal to
`value` (by `FlowQueue.__eq__`) is present, the first such queue is replaced
in place; otherwise `value` is appended. -/
def TrackingData.append (td : TrackingData) (value : FlowQueue) :
    Except Fault TrackingData :=
  if !td.insideContext then .error .lifecycleFault
  else if td.queues.any (fun q => q.eq value) then
    .ok { td with queues := td.queues.set (td.queues.findIdx (fun q => q.eq value)) value }
  else
    .ok { td with queues := td.queues ++ [value] }

/-- The per-queue filter applied by `get_flow_queues`. -/
def queueFilter (camera : Option Int) (start_frame : Option Int)
    (force_run_all : Bool) (tag : Option String) (q : FlowQueue) : Bool :=
  (camera.all (fun c => q.camera == c)) &&
  (start_frame.all (fun s => q.start_frame == s)) &&
  (tag.all (fun t => q.get_tag == t)) &&
  (!q.done || force_run_all)

/-- `TrackingData.get_flow_queues`: context-guarded filter over the queues,
skipping records that fail a given (non-None) filter and skipping done
records unless `force_run_all`. -/
def TrackingData.get_flow_queues (td : TrackingData) (camera : Option Int)
    (start_frame : Option Int) (force_run_all : Bool) (tag : Option String) :
    Except Fault (List FlowQueue) :=
  if !td.insideContext then .error .lifecycleFault
  else .ok (td.queues.filter (queueFilter camera start_frame force_run_all tag))

/-- `TrackingData.all_done`: true iff the collection is empty or every queue
has `done = true`. -/
def TrackingData.all_done (td : TrackingData) : Except Fault Bool :=
  if !td.insideContext then .error .lifecycleFault
  else .ok (td.queues.all (·.done))

/-- `TrackingData.iter_cameras`: the sorted set of distinct camera ids. -/
def TrackingData.iter_cameras (td : TrackingData) : Except Fault (List Int) :=
  if !td.insideContext then .error .lifecycleFault
  else .ok (((td.queues.map (·.camera)).dedup).mergeSort (· ≤ ·))

/-! ## Binary row serialization (`FlowQueue.__array__` / `TrackingData.load`)

The persisted row stores the six integer columns as `i4` and the label as a
fixed 10-byte `S10` cell.  numpy's cast of a Python `str` into an `S` cell
uses the strict ASCII codec (raising `UnicodeEncodeError` on a non-ASCII
string), silently truncates the bytes to the cell width and pads with NUL
bytes; reading the cell back strips all trailing NUL bytes, and
`bytes.decode()` in `TrackingData.load` is Python's strict UTF-8 decoder.
Modern numpy raises `OverflowError` for a Python int outside the `i4`
range. -/

/-- A value fits the signed 32-bit (`i4`) column range. -/
def inI4 (v : Int) : Prop := -2147483648 ≤ v ∧ v < 2147483648

instance (v : Int) : Decidable (inI4 v) := by unfold inI4; infer_instance

/-- `str.encode("ascii")` (the codec numpy applies to a `str` assigned into
an `S`-typed cell): the code points as bytes, or failure on non-ASCII. -/
def asciiEncode (s : String) : Option (List Nat) :=
  if ∀ c ∈ s.data, c.toNat < 128 then some (s.data.map Char.toNat) else none

/-- Fit raw bytes into the fixed `S10` cell: silently truncate to 10 bytes
and pad with NUL bytes. -/
def fitS10 (bs : List Nat) : List Nat :=
  bs.take 10 ++ List.replicate (10 - (bs.take 10).length) 0

/-- Reading an `S`-typed cell back, numpy strips all trailing NUL bytes. -/
def stripTrailingNulls (bs : List Nat) : List Nat :=
  (bs.reverse.dropWhile (· == 0)).reverse

/-- One step of Python's strict UTF-8 decoder (`bytes.decode()`): decode the
leading scalar value, rejecting truncated sequences, stray continuation
bytes, overlong encodings, surrogates, and out-of-range values. -/
def utf8DecodeOne : List Nat → Option (Char × List Nat)
  | [] => none
  | b0 :: r0 =>
    if b0 < 0x80 then some (Char.ofNat b0, r0)
    else if b0 < 0xC0 then none
    else if b0 < 0xE0 then
      match r0 with
      | b1 :: r1 =>
        if 0x80 ≤ b1 ∧ b1 < 0xC0 then
          if 0x80 ≤ (b0 - 0xC0) * 64 + (b1 - 0x80) then
            some (Char.ofNat ((b0 - 0xC0) * 64 + (b1 - 0x80)), r1)
          else none
        else none
      | [] => none
    else if b0 < 0xF0 then
      match r0 with
      | b1 :: b2 :: r2 =>
        if (0x80 ≤ b1 ∧ b1 < 0xC0) ∧ (0x80 ≤ b2 ∧ b2 < 0xC0) then
          if 0x800 ≤ (b0 - 0xE0) * 4096 + (b1 - 0x80) * 64 + (b2 - 0x80) ∧
              ¬(0xD800 ≤ (b0 - 0xE0) * 4096 + (b1 - 0x80) * 64 + (b2 - 0x80) ∧
                (b0 - 0xE0) * 4096 + (b1 - 0x80) * 64 + (b2 - 0x80) ≤ 0xDFFF) then
            some (Char.ofNat ((b0 - 0xE0) * 4096 + (b1 - 0x80) * 64 + (b2 - 0x80)), r2)
          else none
        else none
      | _ => none
    else if b0 < 0xF8 then
      match r0 with
      | b1 :: b2 :: b3 :: r3 =>
        if (0x80 ≤ b1 ∧ b1 < 0xC0) ∧ (0x80 ≤ b2 ∧ b2 < 0xC0) ∧ (0x80 ≤ b3 ∧ b3 < 0xC0) then
          if 0x10000 ≤ (b0 - 0xF0) * 262144 + (b1 - 0x80) * 4096 + (b2 - 0x80) * 64 + (b3 - 0x80) ∧
              (b0 - 0xF0) * 262144 + (b1 - 0x80) * 4096 + (b2 - 0x80) * 64 + (b3 - 0x80) < 0x110000 then
            some (Char.ofNat ((b0 - 0xF0) * 262144 + (b1 - 0x80) * 4096 + (b2 - 0x80) * 64 + (b3 - 0x80)), r3)
          else none
        else none
      | _ => none
    else none

/-- Fuelled decoding loop.  Each step consumes at least one byte while the
fuel drops by exactly one, so fuel equal to the byte count (as passed by
`utf8Decode`) can never run out before the list is exhausted. -/
def utf8DecodeFuel : Nat → List Nat → Option (List Char)
  | _, [] => some []
  | 0, _ :: _ => none
  | fuel + 1, b :: r =>
    match utf8DecodeOne (b :: r) with
    | none => none
    | some (c, rest) => (utf8DecodeFuel fuel rest).map (fun cs => c :: cs)

/-- Python's strict `bytes.decode()` over the whole byte string. -/
def utf8Decode (l : List Nat) : Option (List Char) :=
  utf8DecodeFuel l.length l

/-- `FlowQueue.__array__` (lines 98-107): serialize one record into a row of
the persisted table — a pure projection. -/
def FlowQueue.toRow (q : FlowQueue) : Except Fault Row :=
  if inI4 q.point.1 ∧ inI4 q.point.2 ∧ inI4 q.start_frame ∧ inI4 q.end_frame ∧
      inI4 q.camera ∧ inI4 q.z_index then
    match asciiEncode q.label with
    | some bs =>
      .ok ⟨q.point, q.start_frame, q.end_frame, q.camera, q.z_index, fitS10 bs, q.done⟩
    | none => .error .unicodeFault
  else .error .overflowFault

/-- Reconstructing a `FlowQueue` from a persisted row (`TrackingData.load`,
lines 294-300): the point cell becomes a 2-tuple of ints, the label cell is
read back (trailing NULs stripped by numpy) and decoded; the values are
passed through the validating constructor, whose checks a well-typed row
always satisfies. -/
def FlowQueue.fromRow (r : Row) : Except Fault FlowQueue :=
  match utf8Decode (stripTrailingNulls r.label) with
  | some cs =>
    .ok ⟨r.point, r.start_frame, r.end_frame, r.camera, r.z_index, String.mk cs, r.done⟩
  | none => .error .unicodeFault

/-- A record whose persisted row reproduces it: `i4`-range ints and a label
of at most 10 ASCII bytes not ending in a NUL byte. -/
def FlowQueue.serializable (q : FlowQueue) : Prop :=
  inI4 q.point.1 ∧ inI4 q.point.2 ∧ inI4 q.start_frame ∧ inI4 q.end_frame ∧
  inI4 q.camera ∧ inI4 q.z_index ∧ (∀ c ∈ q.label.data, c.toNat < 128) ∧
  q.label.data.length ≤ 10 ∧ (q.label.data.map Char.toNat).getLast? ≠ some 0

instance (q : FlowQueue) : Decidable q.serializable := by
  unfold FlowQueue.serializable; infer_instance

/-- `TrackingData.__exit__` (lines 332-341): resize the `queues` table to
the in-memory collection's length and write each record's row in order,
then leave the context (`__exit__` itself is not context-guarded). -/
def TrackingData.exitContext (td : TrackingData) (h5 : H5File) :
    Except Fault (TrackingData × H5File) :=
  match td.queues.mapM FlowQueue.toRow with
  | .ok rows => .ok ({ td with insideContext := false }, { h5 with queuesTable := rows })
  | .error f => .error f

/-- `TrackingData.load` (lines 286-304): read the persisted record table and
rebuild the queue collection row by row (the marker-position blob is the
opaque external collaborator).  The loaded store is outside the context. -/
def TrackingData.load (h5 : H5File) : Except Fault TrackingData :=
  match h5.queuesTable.mapM FlowQueue.fromRow with
  | .ok qs => .ok ⟨qs, false, ()⟩
  | .error f => .error f

/-! ## Trajectory datasets (`save/load_pixel_flow_trajectory`, `trim_trajectory`)

A trajectory dataset is a `(n, 2)` integer array addressed by Python/h5py
slices `dset[a:b]`: a negative bound counts from the end, bounds are clamped
to `[0, n]`, and an assignment requires the data length to equal the
selection length (a shape mismatch is an error), while a scalar assignment
broadcasts over the selection. -/

/-- Resolve one Python slice bound against length `n`: negative indices
count from the end, then clamp into `[0, n]`. -/
def sliceBound (n : Nat) (i : Int) : Nat :=
  (min (if i < 0 then i + n else i) n).toNat

/-- `dset[a:b]` read. -/
def readSlice (l : List (Int × Int)) (a b : Int) : List (Int × Int) :=
  (l.drop (sliceBound l.length a)).take (sliceBound l.length b - sliceBound l.length a)

/-- `dset[a:b] = data` array assignment: the selection and the data must
have the same length. -/
def writeSlice (l : List (Int × Int)) (a b : Int) (d : List (Int × Int)) :
    Except Fault (List (Int × Int)) :=
  if d.length = sliceBound l.length b - sliceBound l.length a then
    .ok (l.take (sliceBound l.length a) ++ d ++
      l.drop (max (sliceBound l.length a) (sliceBound l.length b)))
  else .error .valueFault

/-- `traj[a:b] = -1` scalar broadcast: both columns of every selected row
become -1 (the sentinel); never fails. -/
def fillSliceSentinel (l : List (Int × Int)) (a b : Int) : List (Int × Int) :=
  l.mapIdx (fun i x =>
    if sliceBound l.length a ≤ i ∧ i < sliceBound l.length b then (-1, -1) else x)

/-- The body of `save_pixel_flow_trajectory` after the dataset `dset` at the
record's path exists (lines 211-220): a full-trajectory write must match the
dataset's shape and replaces it wholesale; otherwise the data must have
exactly `end_frame - start_frame` rows and is written into the slice
`[start_frame, end_frame)`. -/
def savePixelBody (h5 : H5File) (path : String) (dset : List (Int × Int))
    (data : List (Int × Int)) (q : FlowQueue) (full_trajectory : Bool) :
    Except Fault H5File :=
  if full_trajectory then
    if dset.length = data.length then .ok (h5.setTraj path data)
    else .error .assertionFault
  else
    if q.end_frame - q.start_frame = (data.length : Int) then
      match writeSlice dset q.start_frame q.end_frame data with
      | .ok dset2 => .ok (h5.setTraj path dset2)
      | .error f => .error f
    else .error .assertionFault

/-- `save_pixel_flow_trajectory` without the context guard (lines 188-220):
if a dataset exists at the record's path, a given `size` must equal its
length; otherwise `size` is mandatory and a fresh dataset of shape
`(size, 2)` filled with the sentinel is created (negative sizes are
rejected by `np.full`). -/
def savePixelRaw (h5 : H5File) (data : List (Int × Int)) (q : FlowQueue)
    (size : Option Int) (pre : String) (full_trajectory : Bool) :
    Except Fault H5File :=
  match h5.findTraj (q.h5_directory ++ "/" ++ pre) with
  | some dset =>
    match size with
    | some s =>
      if (dset.length : Int) = s then
        savePixelBody h5 (q.h5_directory ++ "/" ++ pre) dset data q full_trajectory
      else .error .assertionFault
    | none => savePixelBody h5 (q.h5_directory ++ "/" ++ pre) dset data q full_trajectory
  | none =>
    match size with
    | none => .error .assertionFault
    | some s =>
      if s < 0 then .error .valueFault
      else
        savePixelBody h5 (q.h5_directory ++ "/" ++ pre)
          (List.replicate s.toNat ((-1 : Int), (-1 : Int))) data q full_trajectory

/-- `load_pixel_flow_trajectory` without the context guard (lines 229-237):
the full stored array, or its `[start_frame, end_frame)` slice. -/
def loadPixelRaw (h5 : H5File) (q : FlowQueue) (pre : String)
    (full_trajectory : Bool) : Except Fault (List (Int × Int)) :=
  match h5.findTraj (q.h5_directory ++ "/" ++ pre) with
  | none => .error .keyFault
  | some dset =>
    if full_trajectory then .ok dset
    else .ok (readSlice dset q.start_frame q.end_frame)

/-- `TrackingData.save_pixel_flow_trajectory`: the context-guarded entry
point. -/
def TrackingData.save_pixel_flow_trajectory (td : TrackingData) (h5 : H5File)
    (data : List (Int × Int)) (flow_queue : FlowQueue) (size : Option Int)
    (pre : String) (full_trajectory : Bool) : Except Fault H5File :=
  if !td.insideContext then .error .lifecycleFault
  else savePixelRaw h5 data flow_queue size pre full_trajectory

/-- `TrackingData.load_pixel_flow_trajectory`: the context-guarded entry
point. -/
def TrackingData.load_pixel_flow_trajectory (td : TrackingData) (h5 : H5File)
    (flow_queue : FlowQueue) (pre : String) (full_trajectory : Bool) :
    Except Fault (List (Int × Int)) :=
  if !td.insideContext then .error .lifecycleFault
  else loadPixelRaw h5 flow_queue pre full_trajectory

/-- The per-queue test of `trim_trajectory`'s loop (line 253): matching tag
and a span containing `frame` (both ends inclusive). -/
def trimMatch (tag : String) (frame : Int) (q : FlowQueue) : Prop :=
  q.get_tag = tag ∧ q.start_frame ≤ frame ∧ frame ≤ q.end_frame

instance (tag : String) (frame : Int) (q : FlowQueue) :
    Decidable (trimMatch tag frame q) := by
  unfold trimMatch; infer_instance

/-- The body executed by `trim_trajectory` for one matching queue (lines
254-275): load the record's trajectory slice, blank the rows on one side of
`relative = frame - start_frame` with the sentinel, save the slice back
(`self.save/load_pixel_flow_trajectory` — the guard holds inside the loop),
then move the record's frame bound to `frame`. -/
def trimStep (h5 : H5File) (frame : Int) (pre : String) (reverse : Bool)
    (q : FlowQueue) : Except Fault (FlowQueue × H5File) :=
  match loadPixelRaw h5 q pre false with
  | .error f => .error f
  | .ok traj =>
    if reverse then
      match savePixelRaw h5 (fillSliceSentinel traj 0 (frame - q.start_frame))
          q none pre false with
      | .error f => .error f
      | .ok h5x => .ok ({ q with start_frame := frame }, h5x)
    else
      match savePixelRaw h5
          (fillSliceSentinel traj (frame - q.start_frame) (traj.length : Int))
          q none pre false with
      | .error f => .error f
      | .ok h5x => .ok ({ q with end_frame := frame }, h5x)

/-- The loop of `trim_trajectory` (lines 252-275): every queue whose tag
matches and whose span contains `frame` is processed in order (the loop has
no break), threading the container state. -/
def trimGo (tag : String) (frame : Int) (pre : String) (reverse : Bool) :
    H5File → List FlowQueue → Except Fault (List FlowQueue × H5File)
  | h5, [] => .ok ([], h5)
  | h5, q :: rest =>
    if trimMatch tag frame q then
      match trimStep h5 frame pre reverse q with
      | .error f => .error f
      | .ok (q2, h52) =>
        match trimGo tag frame pre reverse h52 rest with
        | .error f => .error f
        | .ok (rest2, h53) => .ok (q2 :: rest2, h53)
    else
      match trimGo tag frame pre reverse h5 rest with
      | .error f => .error f
      | .ok (rest2, h52) => .ok (q :: rest2, h52)

/-- `TrackingData.trim_trajectory`: the context-guarded entry point. -/
def TrackingData.trim_trajectory (td : TrackingData) (h5 : H5File)
    (tag : String) (frame : Int) (pre : String) (reverse : Bool) :
    Except Fault (TrackingData × H5File) :=
  if !td.insideContext then .error .lifecycleFault
  else
    match trimGo tag frame pre reverse h5 td.queues with
    | .error f => .error f
    | .ok (qs, h52) => .ok ({ td with queues := qs }, h52)

/-- A queue whose trajectory state makes a trim step well-defined: a
non-negative span within the bounds of an existing dataset at its path. -/
def trimReady (h5 : H5File) (pre : String) (q : FlowQueue) : Prop :=
  0 ≤ q.start_frame ∧ q.start_frame ≤ q.end_frame ∧
  ∃ dset, h5.findTraj (q.h5_directory ++ "/" ++ pre) = some dset ∧
    q.end_frame ≤ (dset.length : Int)

/-- What any sequence of trim steps at `frame` preserves, per dataset: every
length, every row strictly on the kept side of `frame` (below it for a
forward trim, at or above it for a reverse trim), and sentinel-ness of every
row on the trimmed side. -/
def trimInv (frame : Int) (reverse : Bool) (h5 h5x : H5File) : Prop :=
  (∀ p, (h5x.findTraj p).map List.length = (h5.findTraj p).map List.length) ∧
  (∀ p dset dset2, h5.findTraj p = some dset → h5x.findTraj p = some dset2 →
    (∀ j : Nat, (if reverse then frame ≤ (j : Int) else (j : Int) < frame) →
      dset2[j]? = dset[j]?) ∧
    (∀ j : Nat, (if reverse then (j : Int) < frame else frame ≤ (j : Int)) →
      dset[j]? = some (-1, -1) → dset2[j]? = some (-1, -1)))

/-- The single zeroed row the fresh `queues` table holds. -/
def zeroRow : Row := ⟨(0, 0), 0, 0, 0, 0, List.replicate 10 0, false⟩

/-- `TrackingData.create_template` (lines 306-321): context-guarded; writes
a fresh container holding a one-row `queues` table (plus the opaque
marker-position blob). -/
def TrackingData.create_template (td : TrackingData) : Except Fault H5File :=
  if !td.insideContext then .error .lifecycleFault
  else .ok ⟨[zeroRow], []⟩

/-! ## Sample records used to instantiate hypotheses of the theorems below -/

def fqA : FlowQueue := ⟨(1, 1), 0, 10, 0, 0, "m0", false⟩

def fqB : FlowQueue := ⟨(5, 5), 0, 10, 0, 0, "m0", false⟩

def fqC : FlowQueue := ⟨(2, 3), 10, 50, 2, 1, "m1", true⟩

/-! ## Dynamic attribute model (`FlowQueue.__setattr__`)

Python attribute assignment is dynamically typed, so for the validation
claims we model Python values explicitly.  The attribute names that
`__setattr__` inspects form the fixed, finite set of dataclass fields; they
are modelled by the enumeration `Field` (the string comparisons of the
source become comparisons of this enumeration). -/

/-- A Python runtime value (the constructors cover the types relevant to
`FlowQueue`'s fields plus `None` as a representative of any other type). -/
inductive PyValue where
  | int (n : Int)
  | bool (b : Bool)
  | str (s : String)
  | tuple (vs : List PyValue)
  | pyNone

/-- `isinstance(v, int)`: Python's `bool` is a subclass of `int`. -/
def PyValue.isInt : PyValue → Bool
  | .int _ => true
  | .bool _ => true
  | _ => false

/-- `isinstance(v, bool)`. -/
def PyValue.isBool : PyValue → Bool
  | .bool _ => true
  | _ => false

/-- `isinstance(v, str)`. -/
def PyValue.isStr : PyValue → Bool
  | .str _ => true
  | _ => false

/-- The dataclass field names, in declaration order. -/
inductive Field where
  | point | start_frame | end_frame | camera | z_index | label | done
deriving DecidableEq, Repr

/-- The `__static_variables__` list: fields frozen after initialization. -/
def staticVariables : List Field := [.point, .camera, .z_index, .label]

/-- The type check performed at the top of `__setattr__` (lines 52-76):
`none` when the value passes, otherwise the fault raised.  A non-tuple
`point` raises `TypeError`; a tuple of length other than 2 fails the
`assert` (an `AssertionError`); a tuple holding a non-int raises
`TypeError`.  The four int fields, `label` and `done` raise `TypeError` on a
wrong-typed value. -/
def setattrTypeCheck : Field → PyValue → Option Fault
  | .point, v =>
    match v with
    | .tuple vs =>
      if vs.length ≠ 2 then some .assertionFault
      else if !(vs.all PyValue.isInt) then some .typeFault
      else none
    | _ => some .typeFault
  | .start_frame, v => if v.isInt then none else some .typeFault
  | .end_frame, v => if v.isInt then none else some .typeFault
  | .camera, v => if v.isInt then none else some .typeFault
  | .z_index, v => if v.isInt then none else some .typeFault
  | .label, v => if v.isStr then none else some .typeFault
  | .done, v => if v.isBool then none else some .typeFault

/-- The runtime attribute state of a `FlowQueue` object: its seven attribute
slots plus the `__initialized__` flag. -/
structure FQObj where
  point : PyValue
  start_frame : PyValue
  end_frame : PyValue
  camera : PyValue
  z_index : PyValue
  label : PyValue
  done : PyValue
  initialized : Bool

/-- `super().__setattr__(name, value)`: the raw slot update. -/
def FQObj.setField (o : FQObj) : Field → PyValue → FQObj
  | .point, v => { o with point := v }
  | .start_frame, v => { o with start_frame := v }
  | .end_frame, v => { o with end_frame := v }
  | .camera, v => { o with camera := v }
  | .z_index, v => { o with z_index := v }
  | .label, v => { o with label := v }
  | .done, v => { o with done := v }

/-- Attribute read. -/
def FQObj.getField (o : FQObj) : Field → PyValue
  | .point => o.point
  | .start_frame => o.start_frame
  | .end_frame => o.end_frame
  | .camera => o.camera
  | .z_index => o.z_index
  | .label => o.label
  | .done => o.done

/-- One `self.name = value` assignment (`__setattr__`): type check first;
on success the slot is updated by `super().__setattr__`, and only then, if
the object is initialized and the name is static, `AttributeError` is
raised.  The returned object is the state at the moment control leaves the
method (also when it leaves by raising). -/
def fqSetattr (o : FQObj) (name : Field) (v : PyValue) : FQObj × Option Fault :=
  match setattrTypeCheck name v with
  | some f => (o, some f)
  | none =>
    let o2 := o.setField name v
    if o.initialized ∧ name ∈ staticVariables then (o2, some .attributeFault)
    else (o2, none)

/-- One constructor step: propagate the fault of a failed assignment. -/
def fqStep (o : FQObj) (name : Field) (v : PyValue) : Except Fault FQObj :=
  match fqSetattr o name v with
  | (o2, none) => .ok o2
  | (_, some f) => .error f

/-- The attribute slots of a freshly allocated object, before `__init__`
runs (no attribute set yet, `__initialized__` carries its class default
`False`). -/
def fqObj0 : FQObj :=
  ⟨.pyNone, .pyNone, .pyNone, .pyNone, .pyNone, .pyNone, .pyNone, false⟩

/-- Run a sequence of constructor field assignments in order, then
`__post_init__` (which sets `__initialized__ = True`). -/
def fqInitList (o : FQObj) : List (Field × PyValue) → Except Fault FQObj
  | [] => .ok { o with initialized := true }
  | (n, v) :: rest => (fqStep o n v).bind fun o2 => fqInitList o2 rest

/-- The dataclass constructor: `__init__` assigns the seven fields in
declaration order through `__setattr__` (with `__initialized__` still
false), then `__post_init__` sets `__initialized__ = True`. -/
def fqInit (point start_frame end_frame camera z_index label done : PyValue) :
    Except Fault FQObj :=
  fqInitList fqObj0 [(.point, point), (.start_frame, start_frame),
    (.end_frame, end_frame), (.camera, camera), (.z_index, z_index),
    (.label, label), (.done, done)]

/-- The fault produced by the first field (in declaration order) whose value
fails its type check, if any. -/
def firstFault : List (Field × PyValue) → Option Fault
  | [] => none
  | (n, v) :: rest =>
    match setattrTypeCheck n v with
    | some f => some f
    | none => firstFault rest

/-- Helper: `Option.all` as a universally quantified statement. -/
theorem option_all_iff {α : Type _} {o : Option α} {p : α → Bool} :
    o.all p = true ↔ ∀ a, o = some a → p a = true := by
  cases o <;> simp

/-- `super().__setattr__` never touches the `__initialized__` flag. -/
theorem FQObj.initialized_setField (o : FQObj) (n : Field) (v : PyValue) :
    (o.setField n v).initialized = o.initialized := by
  cases n <;> rfl

/-- A constructor step whose value fails the type check raises that fault. -/
theorem fqStep_check_some (o : FQObj) (n : Field) (v : PyValue) (f : Fault)
    (h : setattrTypeCheck n v = some f) : fqStep o n v = .error f := by
  simp [fqStep, fqSetattr, h]

/-- A constructor step (object not yet initialized) whose value passes the
type check updates the slot. -/
theorem fqStep_check_none (o : FQObj) (n : Field) (v : PyValue)
    (h : setattrTypeCheck n v = none) (hni : o.initialized = false) :
    fqStep o n v = .ok (o.setField n v) := by
  simp [fqStep, fqSetattr, h, hni]

/-- Running the constructor assignments either raises the fault of the first
failing field or folds all the assignments into the object. -/
theorem fqInitList_spec (l : List (Field × PyValue)) (o : FQObj)
    (hni : o.initialized = false) :
    fqInitList o l =
      match firstFault l with
      | some f => .error f
      | none =>
        .ok { l.foldl (fun acc nv => acc.setField nv.1 nv.2) o with initialized := true } := by
  induction l generalizing o with
  | nil => rfl
  | cons nv rest ih =>
    obtain ⟨n, v⟩ := nv
    cases h : setattrTypeCheck n v with
    | some f =>
      simp [fqInitList, fqStep_check_some o n v f h, firstFault, h, Except.bind]
    | none =>
      have hni2 : (o.setField n v).initialized = false := by
        rw [FQObj.initialized_setField, hni]
      simp [fqInitList, fqStep_check_none o n v h hni, firstFault, h,
        Except.bind, ih _ hni2]

/-- C2: `append` is an upsert driven by `FlowQueue.__eq__` (which compares
point, start_frame, end_frame, camera, z_index, label and excludes `done`):
if an equal record is present, the first such record is replaced in place at
the same position and the length is unchanged; otherwise the record is
appended and the length grows by exactly one. -/
theorem append_upsert (td : TrackingData) (v : FlowQueue)
    (hctx : td.insideContext = true) :
    (∀ a b : FlowQueue, a.eq b = true ↔
      (a.point = b.point ∧ a.start_frame = b.start_frame ∧ a.end_frame = b.end_frame ∧
       a.camera = b.camera ∧ a.z_index = b.z_index ∧ a.label = b.label)) ∧
    ((∃ q ∈ td.queues, q.eq v = true) →
      ∃ i qi, td.queues[i]? = some qi ∧ qi.eq v = true ∧
        (∀ j qj, j < i → td.queues[j]? = some qj → qj.eq v = false) ∧
        td.append v = .ok { td with queues := td.queues.set i v } ∧
        (td.queues.set i v)[i]? = some v ∧
        (td.queues.set i v).length = td.queues.length) ∧
    ((∀ q ∈ td.queues, q.eq v = false) →
      td.append v = .ok { td with queues := td.queues ++ [v] } ∧
      (td.queues ++ [v]).length = td.queues.length + 1) := by
  refine ⟨?_, ?_, ?_⟩
  · intro a b
    simp only [FlowQueue.eq, Bool.and_eq_true, beq_iff_eq, Prod.ext_iff]
    tauto
  · intro hex
    have hidx : td.queues.findIdx (fun q => q.eq v) < td.queues.length :=
      List.findIdx_lt_length_of_exists hex
    refine ⟨td.queues.findIdx (fun q => q.eq v),
      td.queues[td.queues.findIdx (fun q => q.eq v)], ?_, ?_, ?_, ?_, ?_, ?_⟩
    · exact List.getElem?_eq_getElem hidx
    · simpa using List.findIdx_getElem (w := hidx)
    · intro j qj hj hget
      have hjlt : j < td.queues.length := Nat.lt_trans hj hidx
      have hn := @List.not_of_lt_findIdx FlowQueue (fun q => q.eq v) td.queues j hj
      rw [List.getElem?_eq_getElem hjlt] at hget
      have hq := Option.some_inj.mp hget
      subst hq
      simpa using hn
    · have hany : td.queues.any (fun q => q.eq v) = true := List.any_eq_true.mpr hex
      simp [TrackingData.append, hctx, hany]
    · exact List.getElem?_set_self hidx
    · exact List.length_set td.queues _ _
  · intro hnone
    have hany : td.queues.any (fun q => q.eq v) = false := by
      simp only [List.any_eq_false]
      intro q hq
      simp [hnone q hq]
    constructor
    · simp [TrackingData.append, hctx, hany]
    · simp

/-- C2 witness: appending a fresh record to a one-record store appends it. -/
theorem append_upsert_witness :
    (TrackingData.mk [fqA] true ()).append fqC =
      .ok (TrackingData.mk [fqA, fqC] true ()) := by
  have h := (append_upsert (TrackingData.mk [fqA] true ()) fqC rfl).2.2
  have hno : ∀ q ∈ (TrackingData.mk [fqA] true ()).queues, q.eq fqC = false := by
    decide
  exact (h hno).1

/-- C7: `get_flow_queues` returns exactly the records matching every non-None
filter (camera, start_frame, tag) whose `done` flag is false — done records
are included as well when `force_run_all` is true — in the stable relative
order of the underlying collection (the result is a sublist of the queues). -/
theorem get_flow_queues_spec (td : TrackingData) (camera start_frame : Option Int)
    (force : Bool) (tag : Option String) (hctx : td.insideContext = true) :
    td.get_flow_queues camera start_frame force tag =
      .ok (td.queues.filter (queueFilter camera start_frame force tag)) ∧
    (td.queues.filter (queueFilter camera start_frame force tag)).Sublist td.queues ∧
    (∀ q, q ∈ td.queues.filter (queueFilter camera start_frame force tag) ↔
      (q ∈ td.queues ∧ (∀ c, camera = some c → q.camera = c) ∧
       (∀ s, start_frame = some s → q.start_frame = s) ∧
       (∀ t, tag = some t → q.get_tag = t) ∧
       (q.done = false ∨ force = true))) := by
  refine ⟨by simp [TrackingData.get_flow_queues, hctx], List.filter_sublist _, ?_⟩
  intro q
  simp only [List.mem_filter, queueFilter, Bool.and_eq_true, option_all_iff,
    beq_iff_eq, Bool.or_eq_true, Bool.not_eq_true']
  tauto

/-- C7 witness: filtering a two-record store by camera 0 keeps only the
not-done camera-0 record. -/
theorem get_flow_queues_witness :
    (TrackingData.mk [fqA, fqC] true ()).get_flow_queues (some 0) none false none =
      .ok [fqA] := by
  have h := (get_flow_queues_spec (TrackingData.mk [fqA, fqC] true ())
    (some 0) none false none rfl).1
  rw [h]
  rfl

/-- C6 counterexample: constructing with `point = (1, 2, 3)` — an invalid
point value — raises `AssertionError` (the failed `assert len(value) == 2`),
which is not the type-mismatch fault (`TypeError`) that the claim specifies
for every invalid field. -/
theorem record_validation_counterexample :
    fqInit (.tuple [.int 1, .int 2, .int 3]) (.int 0) (.int 10) (.int 0) (.int 0)
        (.str "m0") (.bool false) = .error .assertionFault ∧
    Fault.assertionFault ≠ Fault.typeFault := by
  exact ⟨rfl, by decide⟩

/-- C6 (amended): the constructor validates the seven fields in declaration
order and fails with the fault of the first invalid field — a type-mismatch
fault for a wrong-typed value, except that a point tuple whose length is not
2 fails with an assertion fault; a fully valid construction succeeds and
reading back each field returns the value passed in; after construction every
type-correct assignment to `point`, `camera`, `z_index`, or `label` fails
with the immutability fault, while every type-correct assignment to
`start_frame`, `end_frame`, or `done` succeeds and updates the field. -/
theorem record_validation (p sf ef c z l d : PyValue) :
    ((firstFault [(.point, p), (.start_frame, sf), (.end_frame, ef), (.camera, c),
        (.z_index, z), (.label, l), (.done, d)] = none →
      fqInit p sf ef c z l d = .ok ⟨p, sf, ef, c, z, l, d, true⟩ ∧
      ∀ o, fqInit p sf ef c z l d = .ok o →
        o.getField .point = p ∧ o.getField .start_frame = sf ∧
        o.getField .end_frame = ef ∧ o.getField .camera = c ∧
        o.getField .z_index = z ∧ o.getField .label = l ∧ o.getField .done = d) ∧
     (∀ f, firstFault [(.point, p), (.start_frame, sf), (.end_frame, ef), (.camera, c),
        (.z_index, z), (.label, l), (.done, d)] = some f →
      fqInit p sf ef c z l d = .error f)) ∧
    ((∀ vs, setattrTypeCheck .point (.tuple vs) =
        (if vs.length ≠ 2 then some .assertionFault
         else if !(vs.all PyValue.isInt) then some .typeFault else none)) ∧
     (∀ v, (∀ vs, v ≠ .tuple vs) → setattrTypeCheck .point v = some .typeFault) ∧
     (∀ v, setattrTypeCheck .start_frame v = if v.isInt then none else some .typeFault) ∧
     (∀ v, setattrTypeCheck .end_frame v = if v.isInt then none else some .typeFault) ∧
     (∀ v, setattrTypeCheck .camera v = if v.isInt then none else some .typeFault) ∧
     (∀ v, setattrTypeCheck .z_index v = if v.isInt then none else some .typeFault) ∧
     (∀ v, setattrTypeCheck .label v = if v.isStr then none else some .typeFault) ∧
     (∀ v, setattrTypeCheck .done v = if v.isBool then none else some .typeFault)) ∧
    (∀ o : FQObj, o.initialized = true →
      (∀ name, name ∈ staticVariables → ∀ v,
        setattrTypeCheck name v = none → (fqSetattr o name v).2 = some .attributeFault) ∧
      (∀ name, name ∈ ([.start_frame, .end_frame, .done] : List Field) → ∀ v,
        setattrTypeCheck name v = none →
          fqSetattr o name v = (o.setField name v, none))) := by
  have hspec := fqInitList_spec [(.point, p), (.start_frame, sf), (.end_frame, ef),
    (.camera, c), (.z_index, z), (.label, l), (.done, d)] fqObj0 rfl
  refine ⟨⟨?_, ?_⟩, ?_, ?_⟩
  · intro hnone
    rw [hnone] at hspec
    have hgoal : fqInit p sf ef c z l d = .ok ⟨p, sf, ef, c, z, l, d, true⟩ := by
      rw [fqInit, hspec]
      rfl
    refine ⟨hgoal, ?_⟩
    intro o ho
    rw [hgoal] at ho
    cases ho
    exact ⟨rfl, rfl, rfl, rfl, rfl, rfl, rfl⟩
  · intro f hf
    rw [hf] at hspec
    rw [fqInit, hspec]
  · refine ⟨fun vs => rfl, ?_, fun v => rfl, fun v => rfl, fun v => rfl,
      fun v => rfl, fun v => rfl, fun v => rfl⟩
    intro v hv
    cases v with
    | tuple vs => exact absurd rfl (hv vs)
    | int n => rfl
    | bool b => rfl
    | str s => rfl
    | pyNone => rfl
  · intro o ho
    constructor
    · intro name hname v hok
      simp [fqSetattr, hok, ho, hname]
    · intro name hname v hok
      have hns : name ∉ staticVariables := by
        fin_cases hname <;> decide
      simp [fqSetattr, hok, ho, hns]

/-- C6 witness: a fully valid construction succeeds with all fields holding
the values passed in. -/
theorem record_validation_witness :
    fqInit (.tuple [.int 1, .int 1]) (.int 0) (.int 10) (.int 0) (.int 0)
        (.str "m0") (.bool false) =
      .ok ⟨.tuple [.int 1, .int 1], .int 0, .int 10, .int 0, .int 0,
        .str "m0", .bool false, true⟩ :=
  ((record_validation (.tuple [.int 1, .int 1]) (.int 0) (.int 10) (.int 0) (.int 0)
      (.str "m0") (.bool false)).1.1 (by decide)).1

/-- C9: a type-correct assignment to an identity field of an initialized
record raises the immutability fault only after the attribute slot has been
updated: following the failed assignment the field holds the newly assigned
value, not the original one. -/
theorem setattr_mutates_before_fault (o : FQObj) (name : Field) (v : PyValue)
    (hinit : o.initialized = true) (hstatic : name ∈ staticVariables)
    (hok : setattrTypeCheck name v = none) :
    fqSetattr o name v = (o.setField name v, some .attributeFault) ∧
    (fqSetattr o name v).1.getField name = v := by
  have h1 : fqSetattr o name v = (o.setField name v, some .attributeFault) := by
    simp [fqSetattr, hok, hinit, hstatic]
  refine ⟨h1, ?_⟩
  rw [h1]
  cases name <;> simp [FQObj.setField, FQObj.getField]

/-- C9 witness: assigning a new label to a constructed record raises the
immutability fault, yet the label slot afterwards holds the new value. -/
theorem setattr_mutates_before_fault_witness :
    fqSetattr ⟨.tuple [.int 1, .int 1], .int 0, .int 10, .int 0, .int 0,
        .str "m0", .bool false, true⟩ .label (.str "m1") =
      (⟨.tuple [.int 1, .int 1], .int 0, .int 10, .int 0, .int 0,
        .str "m1", .bool false, true⟩, some .attributeFault) :=
  (setattr_mutates_before_fault _ .label (.str "m1") rfl (by decide) rfl).1

/-! ## Container and slice lemmas -/

/-- Replacing the entry whose key is present. -/
theorem find?_map_set (p : String) (d : List (Int × Int)) :
    ∀ (l : List (String × List (Int × Int))), l.any (fun e => e.1 == p) = true →
      (l.map (fun e => if e.1 == p then (p, d) else e)).find? (fun e => e.1 == p) =
        some (p, d)
  | [], h => by simp at h
  | e :: t, h => by
    rw [List.map_cons]
    cases he : (e.1 == p) with
    | true =>
      rw [if_pos rfl]
      exact List.find?_cons_of_pos _ (by simp)
    | false =>
      rw [if_neg (by simp), List.find?_cons_of_neg _ (by simp [he])]
      exact find?_map_set p d t (by simpa [List.any_cons, he] using h)

/-- Finding the entry appended behind keys that all fail the predicate. -/
theorem find?_append_new (p : String) (d : List (Int × Int)) :
    ∀ (l : List (String × List (Int × Int))), l.any (fun e => e.1 == p) = false →
      (l ++ [(p, d)]).find? (fun e => e.1 == p) = some (p, d)
  | [], _ => by
    rw [List.nil_append]
    exact List.find?_cons_of_pos _ (by simp)
  | e :: t, h => by
    have he : (e.1 == p) = false := by
      by_contra hc
      simp [List.any_cons, eq_true_of_ne_false hc] at h
    rw [List.cons_append, List.find?_cons_of_neg _ (by simp [he])]
    exact find?_append_new p d t (by simpa [List.any_cons, he] using h)

/-- The list of entries after `setTraj`. -/
theorem setTraj_trajs (h5 : H5File) (p : String) (d : List (Int × Int)) :
    (h5.setTraj p d).trajs =
      if h5.trajs.any (fun e => e.1 == p) then
        h5.trajs.map (fun e => if e.1 == p then (p, d) else e)
      else h5.trajs ++ [(p, d)] := rfl

/-- After `setTraj p d`, looking up `p` yields `d`. -/
theorem findTraj_setTraj (h5 : H5File) (p : String) (d : List (Int × Int)) :
    (h5.setTraj p d).findTraj p = some d := by
  unfold H5File.findTraj
  rw [setTraj_trajs]
  cases hany : h5.trajs.any (fun e => e.1 == p) with
  | true =>
    rw [if_pos rfl, find?_map_set p d h5.trajs hany]
    rfl
  | false =>
    rw [if_neg (by simp), find?_append_new p d h5.trajs hany]
    rfl

/-- `setTraj p` leaves every other path's dataset unchanged. -/
theorem findTraj_setTraj_ne (h5 : H5File) (p p2 : String) (d : List (Int × Int))
    (hne : p2 ≠ p) :
    (h5.setTraj p d).findTraj p2 = h5.findTraj p2 := by
  have hpnep2 : ∀ (x : String), (x == p) = true → (x == p2) = false := by
    intro x hx
    have hxp : x = p := by simpa using hx
    subst hxp
    exact beq_eq_false_iff_ne.mpr (fun hh => hne hh.symm)
  unfold H5File.findTraj
  rw [setTraj_trajs]
  cases hany : h5.trajs.any (fun e => e.1 == p) with
  | true =>
    rw [if_pos rfl]
    congr 1
    generalize h5.trajs = l
    induction l with
    | nil => rfl
    | cons e t ih =>
      rw [List.map_cons]
      cases he : (e.1 == p) with
      | true =>
        rw [if_pos rfl]
        rw [List.find?_cons_of_neg _ (by simp [hpnep2 p (by simp)]),
          List.find?_cons_of_neg _ (by simp [hpnep2 e.1 he])]
        exact ih
      | false =>
        rw [if_neg (by simp)]
        cases he2 : (e.1 == p2) with
        | true =>
          rw [List.find?_cons_of_pos _ (by simp [he2]),
            List.find?_cons_of_pos _ (by simp [he2])]
        | false =>
          rw [List.find?_cons_of_neg _ (by simp [he2]),
            List.find?_cons_of_neg _ (by simp [he2])]
          exact ih
  | false =>
    rw [if_neg (by simp)]
    congr 1
    generalize h5.trajs = l
    induction l with
    | nil =>
      rw [List.nil_append, List.find?_cons_of_neg _ (by simp [hpnep2 p (by simp)])]
    | cons e t ih =>
      rw [List.cons_append]
      cases he2 : (e.1 == p2) with
      | true =>
        rw [List.find?_cons_of_pos _ (by simp [he2]),
          List.find?_cons_of_pos _ (by simp [he2])]
      | false =>
        rw [List.find?_cons_of_neg _ (by simp [he2]),
          List.find?_cons_of_neg _ (by simp [he2])]
        exact ih

/-- `sliceBound` on an in-range non-negative bound is just the bound. -/
theorem sliceBound_of_nonneg {n : Nat} {i : Int} (h0 : 0 ≤ i) (hn : i ≤ (n : Int)) :
    sliceBound n i = i.toNat := by
  unfold sliceBound
  rw [if_neg (by omega), min_eq_left hn]

/-- Index-wise description of splicing `d` over `[lo, hi)` of `l`. -/
theorem splice_getElem (l d : List (Int × Int)) (lo hi : Nat) (hlohi : lo ≤ hi)
    (hhi : hi ≤ l.length) (hd : d.length = hi - lo) :
    (l.take lo ++ d ++ l.drop hi).length = l.length ∧
    (∀ j : Nat, j < lo → (l.take lo ++ d ++ l.drop hi)[j]? = l[j]?) ∧
    (∀ j : Nat, lo ≤ j → j < hi → (l.take lo ++ d ++ l.drop hi)[j]? = d[j - lo]?) ∧
    (∀ j : Nat, hi ≤ j → (l.take lo ++ d ++ l.drop hi)[j]? = l[j]?) := by
  have hlen1 : (l.take lo).length = lo := by
    rw [List.length_take]
    omega
  have hlen2 : (l.take lo ++ d).length = hi := by
    rw [List.length_append, hlen1]
    omega
  refine ⟨?_, ?_, ?_, ?_⟩
  · rw [List.length_append, hlen2, List.length_drop]
    omega
  · intro j hj
    rw [List.getElem?_append_left (by omega : j < (l.take lo ++ d).length),
      List.getElem?_append_left (by omega : j < (l.take lo).length),
      List.getElem?_take_of_lt hj]
  · intro j hj1 hj2
    rw [List.getElem?_append_left (by omega : j < (l.take lo ++ d).length),
      List.getElem?_append_right (by omega : (l.take lo).length ≤ j), hlen1]
  · intro j hj
    rw [List.getElem?_append_right (by omega : (l.take lo ++ d).length ≤ j), hlen2,
      List.getElem?_drop]
    congr 1
    omega

/-- Length and contents of an in-bounds slice read. -/
theorem readSlice_spec (l : List (Int × Int)) (a b : Int) (h0 : 0 ≤ a) (hab : a ≤ b)
    (hbn : b ≤ (l.length : Int)) :
    (readSlice l a b).length = b.toNat - a.toNat ∧
    (∀ i : Nat, i < b.toNat - a.toNat → (readSlice l a b)[i]? = l[a.toNat + i]?) := by
  have hsa : sliceBound l.length a = a.toNat := sliceBound_of_nonneg h0 (by omega)
  have hsb : sliceBound l.length b = b.toNat := sliceBound_of_nonneg (by omega) hbn
  have hba : b.toNat ≤ l.length := by omega
  unfold readSlice
  rw [hsa, hsb]
  constructor
  · rw [List.length_take, List.length_drop]
    omega
  · intro i hi
    rw [List.getElem?_take_of_lt hi, List.getElem?_drop]

/-- The sentinel broadcast keeps the length. -/
theorem length_fillSliceSentinel (l : List (Int × Int)) (a b : Int) :
    (fillSliceSentinel l a b).length = l.length := by
  unfold fillSliceSentinel
  exact List.length_mapIdx

/-- A selected row becomes the sentinel. -/
theorem fillSliceSentinel_getElem_in (l : List (Int × Int)) (a b : Int) (j : Nat)
    (hj : j < l.length) (h1 : sliceBound l.length a ≤ j) (h2 : j < sliceBound l.length b) :
    (fillSliceSentinel l a b)[j]? = some (-1, -1) := by
  unfold fillSliceSentinel
  rw [List.getElem?_mapIdx, List.getElem?_eq_getElem hj]
  simp [h1, h2]

/-- A row outside the selection is untouched. -/
theorem fillSliceSentinel_getElem_out (l : List (Int × Int)) (a b : Int) (j : Nat)
    (h : ¬(sliceBound l.length a ≤ j ∧ j < sliceBound l.length b)) :
    (fillSliceSentinel l a b)[j]? = l[j]? := by
  unfold fillSliceSentinel
  rw [List.getElem?_mapIdx]
  cases hj : l[j]? with
  | none => rfl
  | some x => simp [h]

/-! ## Trim lemmas -/

/-- `trimInv` is reflexive. -/
theorem trimInv_refl (frame : Int) (reverse : Bool) (h5 : H5File) :
    trimInv frame reverse h5 h5 := by
  refine ⟨fun p => rfl, fun p dset dset2 h1 h2 => ?_⟩
  rw [h1] at h2
  cases h2
  exact ⟨fun j _ => rfl, fun j _ h => h⟩

/-- `trimInv` is transitive. -/
theorem trimInv_trans {frame : Int} {reverse : Bool} {h5a h5b h5c : H5File}
    (h1 : trimInv frame reverse h5a h5b) (h2 : trimInv frame reverse h5b h5c) :
    trimInv frame reverse h5a h5c := by
  obtain ⟨hl1, hp1⟩ := h1
  obtain ⟨hl2, hp2⟩ := h2
  refine ⟨fun p => (hl2 p).trans (hl1 p), ?_⟩
  intro p dset dset2 hfa hfc
  have hmid : ∃ dsetb, h5b.findTraj p = some dsetb := by
    have hx := hl1 p
    rw [hfa] at hx
    cases hb : h5b.findTraj p with
    | none => rw [hb] at hx; simp at hx
    | some x => exact ⟨x, rfl⟩
  obtain ⟨dsetb, hfb⟩ := hmid
  obtain ⟨hk1, hs1⟩ := hp1 p dset dsetb hfa hfb
  obtain ⟨hk2, hs2⟩ := hp2 p dsetb dset2 hfb hfc
  exact ⟨fun j hj => (hk2 j hj).trans (hk1 j hj),
    fun j hj hs => hs2 j hj (hs1 j hj hs)⟩

/-- Trim-readiness survives any state change respecting `trimInv`. -/
theorem trimReady_transport {frame : Int} {reverse : Bool} {h5 h5x : H5File}
    (hinv : trimInv frame reverse h5 h5x) (pre : String) (q : FlowQueue)
    (hr : trimReady h5 pre q) : trimReady h5x pre q := by
  obtain ⟨h1, h2, dset, hfound, hlen⟩ := hr
  refine ⟨h1, h2, ?_⟩
  have hx := hinv.1 (q.h5_directory ++ "/" ++ pre)
  rw [hfound] at hx
  cases hb : h5x.findTraj (q.h5_directory ++ "/" ++ pre) with
  | none => rw [hb] at hx; simp at hx
  | some d2 =>
    rw [hb] at hx
    have hxl : d2.length = dset.length := by simpa using hx
    exact ⟨d2, rfl, by omega⟩

/-- The pure effect of one forward trim on the dataset: load the span
`[a, b)`, blank its rows from `f` on with the sentinel, write it back. -/
theorem trimSliceForward (dset : List (Int × Int)) (a b f : Int)
    (h0 : 0 ≤ a) (haf : a ≤ f) (hfb : f ≤ b) (hbn : b ≤ (dset.length : Int)) :
    ∃ d2, writeSlice dset a b
        (fillSliceSentinel (readSlice dset a b) (f - a)
          (((readSlice dset a b).length : Nat) : Int)) = .ok d2 ∧
      d2.length = dset.length ∧
      (∀ j : Nat, (j : Int) < f → d2[j]? = dset[j]?) ∧
      (∀ j : Nat, f ≤ (j : Int) → (j : Int) < b → d2[j]? = some (-1, -1)) ∧
      (∀ j : Nat, b ≤ (j : Int) → d2[j]? = dset[j]?) := by
  obtain ⟨hrl, hrg⟩ := readSlice_spec dset a b h0 (by omega) hbn
  have hfa : sliceBound (readSlice dset a b).length (f - a) = f.toNat - a.toNat := by
    rw [hrl, sliceBound_of_nonneg (by omega) (by omega)]
    omega
  have hfb2 : sliceBound (readSlice dset a b).length
      (((readSlice dset a b).length : Nat) : Int) = (readSlice dset a b).length :=
    sliceBound_of_nonneg (by omega) (by omega)
  have hDlen : (fillSliceSentinel (readSlice dset a b) (f - a)
      (((readSlice dset a b).length : Nat) : Int)).length = b.toNat - a.toNat := by
    rw [length_fillSliceSentinel, hrl]
  have hD_in : ∀ i : Nat, f.toNat - a.toNat ≤ i → i < b.toNat - a.toNat →
      (fillSliceSentinel (readSlice dset a b) (f - a)
        (((readSlice dset a b).length : Nat) : Int))[i]? = some (-1, -1) := by
    intro i hi1 hi2
    apply fillSliceSentinel_getElem_in
    · omega
    · rw [hfa]; omega
    · rw [hfb2, hrl]; omega
  have hD_out : ∀ i : Nat, i < f.toNat - a.toNat →
      (fillSliceSentinel (readSlice dset a b) (f - a)
        (((readSlice dset a b).length : Nat) : Int))[i]? =
        (readSlice dset a b)[i]? := by
    intro i hi
    apply fillSliceSentinel_getElem_out
    rw [hfa]
    omega
  have hws : writeSlice dset a b (fillSliceSentinel (readSlice dset a b) (f - a)
      (((readSlice dset a b).length : Nat) : Int)) =
      .ok (dset.take a.toNat ++ (fillSliceSentinel (readSlice dset a b) (f - a)
        (((readSlice dset a b).length : Nat) : Int)) ++ dset.drop b.toNat) := by
    unfold writeSlice
    rw [sliceBound_of_nonneg h0 (by omega), sliceBound_of_nonneg (by omega) hbn,
      if_pos (by omega), max_eq_right (by omega)]
  obtain ⟨hslen, hslow, hsmid, hshigh⟩ := splice_getElem dset
    (fillSliceSentinel (readSlice dset a b) (f - a)
      (((readSlice dset a b).length : Nat) : Int)) a.toNat b.toNat
    (by omega) (by omega) (by omega)
  refine ⟨_, hws, hslen, ?_, ?_, ?_⟩
  · intro j hj
    by_cases hjlo : j < a.toNat
    · exact hslow j hjlo
    · rw [hsmid j (by omega) (by omega), hD_out (j - a.toNat) (by omega),
        hrg (j - a.toNat) (by omega)]
      congr 1
      omega
  · intro j hj1 hj2
    rw [hsmid j (by omega) (by omega)]
    exact hD_in (j - a.toNat) (by omega) (by omega)
  · intro j hj
    exact hshigh j (by omega)

/-- The pure effect of one reverse trim on the dataset: load the span
`[a, b)`, blank its rows before `f` with the sentinel, write it back. -/
theorem trimSliceReverse (dset : List (Int × Int)) (a b f : Int)
    (h0 : 0 ≤ a) (haf : a ≤ f) (hfb : f ≤ b) (hbn : b ≤ (dset.length : Int)) :
    ∃ d2, writeSlice dset a b
        (fillSliceSentinel (readSlice dset a b) 0 (f - a)) = .ok d2 ∧
      d2.length = dset.length ∧
      (∀ j : Nat, f ≤ (j : Int) → d2[j]? = dset[j]?) ∧
      (∀ j : Nat, a ≤ (j : Int) → (j : Int) < f → d2[j]? = some (-1, -1)) ∧
      (∀ j : Nat, (j : Int) < a → d2[j]? = dset[j]?) := by
  obtain ⟨hrl, hrg⟩ := readSlice_spec dset a b h0 (by omega) hbn
  have hf0 : sliceBound (readSlice dset a b).length 0 = 0 := by
    rw [sliceBound_of_nonneg (by omega) (by omega)]
    rfl
  have hfa : sliceBound (readSlice dset a b).length (f - a) = f.toNat - a.toNat := by
    rw [hrl, sliceBound_of_nonneg (by omega) (by omega)]
    omega
  have hD_in : ∀ i : Nat, i < f.toNat - a.toNat →
      (fillSliceSentinel (readSlice dset a b) 0 (f - a))[i]? = some (-1, -1) := by
    intro i hi
    apply fillSliceSentinel_getElem_in
    · rw [hrl]; omega
    · rw [hf0]; omega
    · rw [hfa]; omega
  have hD_out : ∀ i : Nat, f.toNat - a.toNat ≤ i →
      (fillSliceSentinel (readSlice dset a b) 0 (f - a))[i]? =
        (readSlice dset a b)[i]? := by
    intro i hi
    apply fillSliceSentinel_getElem_out
    rw [hfa]
    omega
  have hws : writeSlice dset a b (fillSliceSentinel (readSlice dset a b) 0 (f - a)) =
      .ok (dset.take a.toNat ++ fillSliceSentinel (readSlice dset a b) 0 (f - a) ++
        dset.drop b.toNat) := by
    unfold writeSlice
    rw [sliceBound_of_nonneg h0 (by omega), sliceBound_of_nonneg (by omega) hbn,
      if_pos (by rw [length_fillSliceSentinel, hrl]), max_eq_right (by omega)]
  obtain ⟨hslen, hslow, hsmid, hshigh⟩ := splice_getElem dset
    (fillSliceSentinel (readSlice dset a b) 0 (f - a)) a.toNat b.toNat
    (by omega) (by omega) (by rw [length_fillSliceSentinel, hrl])
  refine ⟨_, hws, hslen, ?_, ?_, ?_⟩
  · intro j hj
    by_cases hjhi : b.toNat ≤ j
    · exact hshigh j hjhi
    · rw [hsmid j (by omega) (by omega), hD_out (j - a.toNat) (by omega),
        hrg (j - a.toNat) (by omega)]
      congr 1
      omega
  · intro j hj1 hj2
    rw [hsmid j (by omega) (by omega)]
    exact hD_in (j - a.toNat) (by omega)
  · intro j hj
    exact hslow j (by omega)

/-- A forward trim step on a trim-ready matching queue: the span rows from
`frame` on become the sentinel, everything else at the path is unchanged,
and the record's `end_frame` moves to `frame`. -/
theorem trimStep_forward (h5 : H5File) (frame : Int) (pre : String) (q : FlowQueue)
    (dset : List (Int × Int)) (hq0 : 0 ≤ q.start_frame)
    (hfound : h5.findTraj (q.h5_directory ++ "/" ++ pre) = some dset)
    (hdlen : q.end_frame ≤ (dset.length : Int))
    (hsf : q.start_frame ≤ frame) (hfe : frame ≤ q.end_frame) :
    ∃ dset2, trimStep h5 frame pre false q =
        .ok ({ q with end_frame := frame },
          h5.setTraj (q.h5_directory ++ "/" ++ pre) dset2) ∧
      dset2.length = dset.length ∧
      (∀ j : Nat, (j : Int) < frame → dset2[j]? = dset[j]?) ∧
      (∀ j : Nat, frame ≤ (j : Int) → (j : Int) < q.end_frame →
        dset2[j]? = some (-1, -1)) ∧
      (∀ j : Nat, q.end_frame ≤ (j : Int) → dset2[j]? = dset[j]?) := by
  obtain ⟨dset2, hws, hdl, hkeep, hsent, hout⟩ :=
    trimSliceForward dset q.start_frame q.end_frame frame hq0 hsf hfe hdlen
  obtain ⟨hrl, -⟩ := readSlice_spec dset q.start_frame q.end_frame hq0 (by omega) (by omega)
  have hload : loadPixelRaw h5 q pre false =
      .ok (readSlice dset q.start_frame q.end_frame) := by
    unfold loadPixelRaw
    rw [hfound]
    rfl
  have hcond : q.end_frame - q.start_frame =
      ((fillSliceSentinel (readSlice dset q.start_frame q.end_frame)
        (frame - q.start_frame)
        (((readSlice dset q.start_frame q.end_frame).length : Nat) : Int)).length : Int) := by
    rw [length_fillSliceSentinel, hrl]
    omega
  have hsave : savePixelRaw h5
      (fillSliceSentinel (readSlice dset q.start_frame q.end_frame)
        (frame - q.start_frame)
        (((readSlice dset q.start_frame q.end_frame).length : Nat) : Int)) q none pre false =
      .ok (h5.setTraj (q.h5_directory ++ "/" ++ pre) dset2) := by
    simp only [savePixelRaw, hfound, savePixelBody, Bool.false_eq_true, if_false]
    rw [if_pos hcond, hws]
  refine ⟨dset2, ?_, hdl, hkeep, hsent, hout⟩
  simp only [trimStep, hload, Bool.false_eq_true, if_false, hsave]

/-- A reverse trim step on a trim-ready matching queue: the span rows before
`frame` become the sentinel, everything else at the path is unchanged, and
the record's `start_frame` moves to `frame`. -/
theorem trimStep_reverse (h5 : H5File) (frame : Int) (pre : String) (q : FlowQueue)
    (dset : List (Int × Int)) (hq0 : 0 ≤ q.start_frame)
    (hfound : h5.findTraj (q.h5_directory ++ "/" ++ pre) = some dset)
    (hdlen : q.end_frame ≤ (dset.length : Int))
    (hsf : q.start_frame ≤ frame) (hfe : frame ≤ q.end_frame) :
    ∃ dset2, trimStep h5 frame pre true q =
        .ok ({ q with start_frame := frame },
          h5.setTraj (q.h5_directory ++ "/" ++ pre) dset2) ∧
      dset2.length = dset.length ∧
      (∀ j : Nat, frame ≤ (j : Int) → dset2[j]? = dset[j]?) ∧
      (∀ j : Nat, q.start_frame ≤ (j : Int) → (j : Int) < frame →
        dset2[j]? = some (-1, -1)) ∧
      (∀ j : Nat, (j : Int) < q.start_frame → dset2[j]? = dset[j]?) := by
  obtain ⟨dset2, hws, hdl, hkeep, hsent, hout⟩ :=
    trimSliceReverse dset q.start_frame q.end_frame frame hq0 hsf hfe hdlen
  obtain ⟨hrl, -⟩ := readSlice_spec dset q.start_frame q.end_frame hq0 (by omega) (by omega)
  have hload : loadPixelRaw h5 q pre false =
      .ok (readSlice dset q.start_frame q.end_frame) := by
    unfold loadPixelRaw
    rw [hfound]
    rfl
  have hcond : q.end_frame - q.start_frame =
      ((fillSliceSentinel (readSlice dset q.start_frame q.end_frame) 0
        (frame - q.start_frame)).length : Int) := by
    rw [length_fillSliceSentinel, hrl]
    omega
  have hsave : savePixelRaw h5
      (fillSliceSentinel (readSlice dset q.start_frame q.end_frame) 0
        (frame - q.start_frame)) q none pre false =
      .ok (h5.setTraj (q.h5_directory ++ "/" ++ pre) dset2) := by
    simp only [savePixelRaw, hfound, savePixelBody, Bool.false_eq_true, if_false]
    rw [if_pos hcond, hws]
  refine ⟨dset2, ?_, hdl, hkeep, hsent, hout⟩
  simp only [trimStep, hload, if_true, hsave]

/-- Writing a dataset whose kept side is unchanged and whose trimmed side
preserves sentinels respects `trimInv`. -/
theorem trimInv_setTraj (h5 : H5File) (p : String) (dset dset2 : List (Int × Int))
    (frame : Int) (reverse : Bool)
    (hfound : h5.findTraj p = some dset)
    (hlen : dset2.length = dset.length)
    (hkeep : ∀ j : Nat, (if reverse then frame ≤ (j : Int) else (j : Int) < frame) →
      dset2[j]? = dset[j]?)
    (hsent : ∀ j : Nat, (if reverse then (j : Int) < frame else frame ≤ (j : Int)) →
      dset[j]? = some (-1, -1) → dset2[j]? = some (-1, -1)) :
    trimInv frame reverse h5 (h5.setTraj p dset2) := by
  constructor
  · intro p2
    by_cases hp : p2 = p
    · subst hp
      rw [findTraj_setTraj, hfound]
      simp [hlen]
    · rw [findTraj_setTraj_ne _ _ _ _ hp]
  · intro p2 dA dB hfa hfb
    by_cases hp : p2 = p
    · subst hp
      rw [hfound] at hfa
      cases hfa
      rw [findTraj_setTraj] at hfb
      cases hfb
      exact ⟨hkeep, hsent⟩
    · rw [findTraj_setTraj_ne _ _ _ _ hp] at hfb
      rw [hfa] at hfb
      cases hfb
      exact ⟨fun j _ => rfl, fun j _ h => h⟩

/-- One matching trim step succeeds on a trim-ready queue and respects
`trimInv`. -/
theorem trimStep_ok {h5 : H5File} {frame : Int} {pre : String} {reverse : Bool}
    {q : FlowQueue} (hr : trimReady h5 pre q)
    (hsf : q.start_frame ≤ frame) (hfe : frame ≤ q.end_frame) :
    ∃ q2 h5x, trimStep h5 frame pre reverse q = .ok (q2, h5x) ∧
      trimInv frame reverse h5 h5x := by
  obtain ⟨hq0, hqse, dset, hfound, hdlen⟩ := hr
  cases reverse with
  | false =>
    obtain ⟨dset2, hstep, hlen, hkeep, hsent, hout⟩ :=
      trimStep_forward h5 frame pre q dset hq0 hfound hdlen hsf hfe
    refine ⟨_, _, hstep, trimInv_setTraj h5 _ dset dset2 frame false hfound hlen hkeep ?_⟩
    intro j hj hs
    by_cases hjb : (j : Int) < q.end_frame
    · exact hsent j hj hjb
    · rw [hout j (by omega)]
      exact hs
  | true =>
    obtain ⟨dset2, hstep, hlen, hkeep, hsent, hout⟩ :=
      trimStep_reverse h5 frame pre q dset hq0 hfound hdlen hsf hfe
    refine ⟨_, _, hstep, trimInv_setTraj h5 _ dset dset2 frame true hfound hlen hkeep ?_⟩
    intro j hj hs
    by_cases hjb : q.start_frame ≤ (j : Int)
    · exact hsent j hjb hj
    · rw [hout j (by omega)]
      exact hs

/-- Unfolding the trim loop on a matching head. -/
theorem trimGo_cons_match (tag : String) (frame : Int) (pre : String) (reverse : Bool)
    (q : FlowQueue) (rest : List FlowQueue) (h5 : H5File)
    (hq : trimMatch tag frame q) :
    trimGo tag frame pre reverse h5 (q :: rest) =
      match trimStep h5 frame pre reverse q with
      | .error f => .error f
      | .ok (q2, h52) =>
        match trimGo tag frame pre reverse h52 rest with
        | .error f => .error f
        | .ok (rest2, h53) => .ok (q2 :: rest2, h53) := by
  conv_lhs => unfold trimGo
  rw [if_pos hq]

/-- Unfolding the trim loop on a non-matching head. -/
theorem trimGo_cons_nomatch (tag : String) (frame : Int) (pre : String) (reverse : Bool)
    (q : FlowQueue) (rest : List FlowQueue) (h5 : H5File)
    (hq : ¬trimMatch tag frame q) :
    trimGo tag frame pre reverse h5 (q :: rest) =
      match trimGo tag frame pre reverse h5 rest with
      | .error f => .error f
      | .ok (rest2, h52) => .ok (q :: rest2, h52) := by
  conv_lhs => unfold trimGo
  rw [if_neg hq]

/-- The trim loop succeeds on a list of trim-ready queues and respects
`trimInv`, keeping the collection's length. -/
theorem trimGo_ok (tag : String) (frame : Int) (pre : String) (reverse : Bool) :
    ∀ (L : List FlowQueue) (h5 : H5File),
      (∀ q ∈ L, trimMatch tag frame q → trimReady h5 pre q) →
      ∃ L2 h5x, trimGo tag frame pre reverse h5 L = .ok (L2, h5x) ∧
        trimInv frame reverse h5 h5x ∧ L2.length = L.length
  | [], h5, _ => ⟨[], h5, rfl, trimInv_refl _ _ _, rfl⟩
  | q :: rest, h5, hready => by
    by_cases hm : trimMatch tag frame q
    · obtain ⟨q2, h5x, hstep, hinv⟩ :=
        trimStep_ok (hready q (List.mem_cons_self q rest) hm) hm.2.1 hm.2.2
      obtain ⟨L2, h5y, hgo, hinv2, hlen⟩ := trimGo_ok tag frame pre reverse rest h5x
        (fun q2 hq2 hm2 =>
          trimReady_transport hinv pre q2 (hready q2 (List.mem_cons_of_mem q hq2) hm2))
      refine ⟨q2 :: L2, h5y, ?_, trimInv_trans hinv hinv2, by simp [hlen]⟩
      rw [trimGo_cons_match tag frame pre reverse q rest h5 hm, hstep]
      simp only [hgo]
    · obtain ⟨L2, h5y, hgo, hinv2, hlen⟩ := trimGo_ok tag frame pre reverse rest h5
        (fun q2 hq2 hm2 => hready q2 (List.mem_cons_of_mem q hq2) hm2)
      refine ⟨q :: L2, h5y, ?_, hinv2, by simp [hlen]⟩
      rw [trimGo_cons_nomatch tag frame pre reverse q rest h5 hm, hgo]

/-- A run of queues none of which matches is passed over untouched. -/
theorem trimGo_nomatch (tag : String) (frame : Int) (pre : String) (reverse : Bool) :
    ∀ (L : List FlowQueue) (h5 : H5File), (∀ q ∈ L, ¬trimMatch tag frame q) →
      trimGo tag frame pre reverse h5 L = .ok (L, h5)
  | [], h5, _ => rfl
  | q :: rest, h5, hno => by
    rw [trimGo_cons_nomatch tag frame pre reverse q rest h5
        (hno q (List.mem_cons_self q rest)),
      trimGo_nomatch tag frame pre reverse rest h5
        (fun q2 hq2 => hno q2 (List.mem_cons_of_mem q hq2))]

/-- Prepending non-matching queues only reinserts them in front. -/
theorem trimGo_append_skip (tag : String) (frame : Int) (pre : String) (reverse : Bool) :
    ∀ (qs1 L : List FlowQueue) (h5 : H5File), (∀ q ∈ qs1, ¬trimMatch tag frame q) →
      trimGo tag frame pre reverse h5 (qs1 ++ L) =
        (trimGo tag frame pre reverse h5 L).map (fun r => (qs1 ++ r.1, r.2))
  | [], L, h5, _ => by
    cases h : trimGo tag frame pre reverse h5 L with
    | error f => simp [Except.map, h]
    | ok r => simp [Except.map, h]
  | q :: qs1, L, h5, hno => by
    rw [List.cons_append,
      trimGo_cons_nomatch tag frame pre reverse q (qs1 ++ L) h5
        (hno q (List.mem_cons_self q qs1)),
      trimGo_append_skip tag frame pre reverse qs1 L h5
        (fun q2 hq2 => hno q2 (List.mem_cons_of_mem q hq2))]
    cases h : trimGo tag frame pre reverse h5 L with
    | error f => simp [Except.map, h]
    | ok r => simp [Except.map, h]

/-! ## Serialization lemmas -/

/-- `Except`'s bind on a success value. -/
theorem except_ok_bind {ε α β : Type} (a : α) (f : α → Except ε β) :
    (Except.ok a >>= f) = f a := rfl

/-- Decoding an all-ASCII byte string yields exactly its code points. -/
theorem utf8DecodeFuel_ascii : ∀ (l : List Nat), (∀ b ∈ l, b < 128) →
    utf8DecodeFuel l.length l = some (l.map Char.ofNat)
  | [], _ => rfl
  | b :: r, h => by
    have hb : b < 128 := h b (List.mem_cons_self b r)
    have ih := utf8DecodeFuel_ascii r (fun x hx => h x (List.mem_cons_of_mem b hx))
    simp [utf8DecodeFuel, utf8DecodeOne, hb, ih]

/-- Decoding an all-ASCII byte string yields exactly its code points. -/
theorem utf8Decode_ascii (l : List Nat) (h : ∀ b ∈ l, b < 128) :
    utf8Decode l = some (l.map Char.ofNat) :=
  utf8DecodeFuel_ascii l h

/-- Dropping a leading block of satisfied elements. -/
theorem dropWhile_replicate_append (p : Nat → Bool) (k : Nat) (l : List Nat)
    (hp : p 0 = true) :
    (List.replicate k 0 ++ l).dropWhile p = l.dropWhile p := by
  induction k with
  | zero => simp
  | succ n ih => simp [List.replicate_succ, List.dropWhile_cons, hp, ih]

/-- Stripping trailing NULs undoes NUL padding when the payload itself does
not end in a NUL byte. -/
theorem stripTrailingNulls_append_replicate (bs : List Nat) (k : Nat)
    (h : bs.getLast? ≠ some 0) :
    stripTrailingNulls (bs ++ List.replicate k 0) = bs := by
  unfold stripTrailingNulls
  rw [List.reverse_append, List.reverse_replicate,
    dropWhile_replicate_append _ k _ (by rfl)]
  cases hbs : bs.reverse with
  | nil =>
    have : bs = [] := List.reverse_eq_nil_iff.mp hbs
    simp [this]
  | cons x xs =>
    have hx : bs.getLast? = some x := by
      rw [List.getLast?_eq_head?_reverse, hbs]; rfl
    have hx0 : (x == 0) = false := by
      rcases eq_or_ne x 0 with rfl | hne
      · exact absurd hx h
      · exact beq_eq_false_iff_ne.mpr hne
    rw [List.dropWhile_cons, hx0]
    simp only [Bool.false_eq_true, if_false]
    rw [← hbs, List.reverse_reverse]

/-- Per-record serialization round trip. -/
theorem toRow_fromRow (q : FlowQueue) (h : q.serializable) :
    ∃ r, FlowQueue.toRow q = .ok r ∧ FlowQueue.fromRow r = .ok q := by
  obtain ⟨h1, h2, h3, h4, h5, h6, hascii, hlen, hlast⟩ := h
  have henc : asciiEncode q.label = some (q.label.data.map Char.toNat) := by
    unfold asciiEncode
    rw [if_pos hascii]
  have hbslen : (q.label.data.map Char.toNat).length = q.label.data.length :=
    List.length_map _ _
  have htake : (q.label.data.map Char.toNat).take 10 = q.label.data.map Char.toNat :=
    List.take_of_length_le (by omega)
  have hfit : fitS10 (q.label.data.map Char.toNat) =
      q.label.data.map Char.toNat ++
        List.replicate (10 - (q.label.data.map Char.toNat).length) 0 := by
    unfold fitS10
    rw [htake]
  refine ⟨⟨q.point, q.start_frame, q.end_frame, q.camera, q.z_index,
    fitS10 (q.label.data.map Char.toNat), q.done⟩, ?_, ?_⟩
  · unfold FlowQueue.toRow
    rw [if_pos ⟨h1, h2, h3, h4, h5, h6⟩, henc]
  · unfold FlowQueue.fromRow
    have hstrip : stripTrailingNulls (fitS10 (q.label.data.map Char.toNat)) =
        q.label.data.map Char.toNat := by
      rw [hfit]
      exact stripTrailingNulls_append_replicate _ _ hlast
    have hbytes : ∀ b ∈ q.label.data.map Char.toNat, b < 128 := by
      intro b hb
      obtain ⟨c, hc, rfl⟩ := List.mem_map.mp hb
      exact hascii c hc
    have hdec : utf8Decode (stripTrailingNulls (fitS10 (q.label.data.map Char.toNat))) =
        some q.label.data := by
      rw [hstrip, utf8Decode_ascii _ hbytes, List.map_map]
      congr 1
      calc q.label.data.map (Char.ofNat ∘ Char.toNat)
          = q.label.data.map id := List.map_congr_left (fun c _ => Char.ofNat_toNat c)
        _ = q.label.data := List.map_id _
    rw [hdec]

/-- Serializing a queue list row by row and reading it back. -/
theorem mapM_row_roundtrip (l : List FlowQueue) (h : ∀ q ∈ l, q.serializable) :
    ∃ rows, l.mapM FlowQueue.toRow = .ok rows ∧ rows.length = l.length ∧
      List.Forall₂ (fun q r => FlowQueue.toRow q = .ok r) l rows ∧
      rows.mapM FlowQueue.fromRow = .ok l := by
  induction l with
  | nil => exact ⟨[], rfl, rfl, List.Forall₂.nil, rfl⟩
  | cons q t ih =>
    obtain ⟨rows, hm, hlen, hfa, hback⟩ := ih (fun x hx => h x (List.mem_cons_of_mem q hx))
    obtain ⟨r, hr, hrb⟩ := toRow_fromRow q (h q (List.mem_cons_self q t))
    refine ⟨r :: rows, ?_, by simp [hlen], List.Forall₂.cons hr hfa, ?_⟩
    · rw [List.mapM_cons, hr, except_ok_bind, hm, except_ok_bind]
      rfl
    · rw [List.mapM_cons, hrb, except_ok_bind, hback, except_ok_bind]
      rfl

/-- C3: flushing a store of serializable records on scope exit writes the
record table as exactly one row per record, in the in-memory order, and a
subsequent load of the container reconstructs a record collection equal to
the original — even equal as lists, hence as sets under full field equality
including `done`. -/
theorem flush_load_roundtrip (td : TrackingData) (h5 : H5File)
    (hser : ∀ q ∈ td.queues, q.serializable) :
    ∃ rows, td.queues.mapM FlowQueue.toRow = .ok rows ∧
      td.exitContext h5 =
        .ok ({ td with insideContext := false }, { h5 with queuesTable := rows }) ∧
      rows.length = td.queues.length ∧
      List.Forall₂ (fun q r => FlowQueue.toRow q = .ok r) td.queues rows ∧
      ∃ td2, TrackingData.load { h5 with queuesTable := rows } = .ok td2 ∧
        td2.queues = td.queues ∧ (∀ q, q ∈ td2.queues ↔ q ∈ td.queues) := by
  obtain ⟨rows, hm, hlen, hfa, hback⟩ := mapM_row_roundtrip td.queues hser
  refine ⟨rows, hm, ?_, hlen, hfa, ⟨td.queues, false, ()⟩, ?_, rfl, fun q => Iff.rfl⟩
  · unfold TrackingData.exitContext
    rw [hm]
  · unfold TrackingData.load
    have hq : ({ h5 with queuesTable := rows } : H5File).queuesTable = rows := rfl
    rw [hq, hback]

/-- C3 witness: a one-record store flushes to a one-row table that loads
back to the same record. -/
theorem flush_load_roundtrip_witness :
    (∀ q ∈ (TrackingData.mk [fqC] true ()).queues, q.serializable) ∧
    (∃ rows, (TrackingData.mk [fqC] true ()).queues.mapM FlowQueue.toRow = .ok rows ∧
      (TrackingData.mk [fqC] true ()).exitContext (H5File.mk [] []) =
        .ok ({ TrackingData.mk [fqC] true () with insideContext := false },
          { H5File.mk [] [] with queuesTable := rows }) ∧
      rows.length = (TrackingData.mk [fqC] true ()).queues.length ∧
      List.Forall₂ (fun q r => FlowQueue.toRow q = .ok r)
        (TrackingData.mk [fqC] true ()).queues rows ∧
      ∃ td2, TrackingData.load { H5File.mk [] [] with queuesTable := rows } = .ok td2 ∧
        td2.queues = (TrackingData.mk [fqC] true ()).queues ∧
        (∀ q, q ∈ td2.queues ↔ q ∈ (TrackingData.mk [fqC] true ()).queues)) :=
  ⟨by decide, flush_load_roundtrip (TrackingData.mk [fqC] true ()) (H5File.mk [] []) (by decide)⟩

/-- C10: the constructor checks only the label's type, never its length,
while the row schema stores it in a fixed 10-byte cell: a record with an
(ASCII-serializable) label longer than 10 bytes constructs and appends
fine, its serialization succeeds but silently truncates the label cell to
the first 10 bytes, and the reloaded record is not equal to the original. -/
theorem label_truncation (q : FlowQueue)
    (hi4 : inI4 q.point.1 ∧ inI4 q.point.2 ∧ inI4 q.start_frame ∧ inI4 q.end_frame ∧
      inI4 q.camera ∧ inI4 q.z_index)
    (hascii : ∀ c ∈ q.label.data, c.toNat < 128)
    (hlong : 10 < q.label.data.length) :
    (∃ o, fqInit (.tuple [.int q.point.1, .int q.point.2]) (.int q.start_frame)
        (.int q.end_frame) (.int q.camera) (.int q.z_index) (.str q.label)
        (.bool q.done) = .ok o) ∧
    (∀ td : TrackingData, td.insideContext = true → ∃ td2, td.append q = .ok td2) ∧
    (∃ r, FlowQueue.toRow q = .ok r ∧
      r.label = (q.label.data.map Char.toNat).take 10 ∧ r.label.length = 10 ∧
      ∃ q2, FlowQueue.fromRow r = .ok q2 ∧ q2.label ≠ q.label ∧ q2 ≠ q) := by
  obtain ⟨h1, h2, h3, h4, h5, h6⟩ := hi4
  refine ⟨?_, ?_, ?_⟩
  · have hff : firstFault [(.point, .tuple [.int q.point.1, .int q.point.2]),
        (.start_frame, .int q.start_frame), (.end_frame, .int q.end_frame),
        (.camera, .int q.camera), (.z_index, .int q.z_index),
        (.label, .str q.label), (.done, .bool q.done)] = none := rfl
    have hs := fqInitList_spec [(.point, .tuple [.int q.point.1, .int q.point.2]),
        (.start_frame, .int q.start_frame), (.end_frame, .int q.end_frame),
        (.camera, .int q.camera), (.z_index, .int q.z_index),
        (.label, .str q.label), (.done, .bool q.done)] fqObj0 rfl
    rw [hff] at hs
    exact ⟨_, hs⟩
  · intro td hctx
    cases hany : td.queues.any (fun x => x.eq q) with
    | false =>
      exact ⟨{ td with queues := td.queues ++ [q] },
        by simp [TrackingData.append, hctx, hany]⟩
    | true =>
      exact ⟨{ td with queues := td.queues.set (td.queues.findIdx (fun x => x.eq q)) q },
        by simp [TrackingData.append, hctx, hany]⟩
  · have henc : asciiEncode q.label = some (q.label.data.map Char.toNat) := by
      unfold asciiEncode
      rw [if_pos hascii]
    have hlen10 : ((q.label.data.map Char.toNat).take 10).length = 10 := by
      rw [List.length_take, List.length_map]
      omega
    have hfit : fitS10 (q.label.data.map Char.toNat) =
        (q.label.data.map Char.toNat).take 10 := by
      unfold fitS10
      rw [hlen10]
      simp
    refine ⟨⟨q.point, q.start_frame, q.end_frame, q.camera, q.z_index,
      fitS10 (q.label.data.map Char.toNat), q.done⟩, ?_, ?_, ?_, ?_⟩
    · unfold FlowQueue.toRow
      rw [if_pos ⟨h1, h2, h3, h4, h5, h6⟩, henc]
    · exact hfit
    · rw [hfit]; exact hlen10
    · have hsub : ∀ b ∈ stripTrailingNulls ((q.label.data.map Char.toNat).take 10),
          b < 128 := by
        intro b hb
        unfold stripTrailingNulls at hb
        rw [List.mem_reverse] at hb
        have hb2 := (List.dropWhile_sublist (· == 0)).subset hb
        rw [List.mem_reverse] at hb2
        have hb3 := List.take_subset 10 _ hb2
        obtain ⟨c, hc, rfl⟩ := List.mem_map.mp hb3
        exact hascii c hc
      have hdec := utf8Decode_ascii _ hsub
      have hshort : (stripTrailingNulls ((q.label.data.map Char.toNat).take 10)).length ≤ 10 := by
        have hsl : (((q.label.data.map Char.toNat).take 10).reverse.dropWhile
              (· == 0)).length ≤ ((q.label.data.map Char.toNat).take 10).reverse.length :=
          (List.dropWhile_sublist (· == 0)).length_le
        rw [List.length_reverse, List.length_take, List.length_map] at hsl
        unfold stripTrailingNulls
        rw [List.length_reverse]
        omega
      refine ⟨⟨q.point, q.start_frame, q.end_frame, q.camera, q.z_index,
        String.mk ((stripTrailingNulls ((q.label.data.map Char.toNat).take 10)).map
          Char.ofNat), q.done⟩, ?_, ?_, ?_⟩
      · unfold FlowQueue.fromRow
        simp only [hfit, hdec]
      · intro he
        have := congrArg (fun s => s.data.length) he
        simp only [List.length_map] at this
        omega
      · intro he
        have hlab := congrArg FlowQueue.label he
        have := congrArg (fun s => s.data.length) hlab
        simp only [List.length_map] at this
        omega

/-- C5: every context-guarded operation — append, get_flow_queues, all_done,
iter_cameras, save_pixel_flow_trajectory, load_pixel_flow_trajectory,
trim_trajectory, create_template — raises the lifecycle fault immediately
when the store is not in the acquired state.  The guard runs before any of
the method body, so the record collection and the container are untouched
(the error outcome carries no new state: the caller keeps the input state
unchanged). -/
theorem lifecycle_guard (td : TrackingData) (h5 : H5File)
    (hctx : td.insideContext = false) (v : FlowQueue)
    (camera start_frame : Option Int) (force : Bool) (tagF : Option String)
    (data : List (Int × Int)) (q : FlowQueue) (size : Option Int) (pre : String)
    (full : Bool) (tag : String) (frame : Int) (reverse : Bool) :
    td.append v = .error .lifecycleFault ∧
    td.get_flow_queues camera start_frame force tagF = .error .lifecycleFault ∧
    td.all_done = .error .lifecycleFault ∧
    td.iter_cameras = .error .lifecycleFault ∧
    td.save_pixel_flow_trajectory h5 data q size pre full = .error .lifecycleFault ∧
    td.load_pixel_flow_trajectory h5 q pre full = .error .lifecycleFault ∧
    td.trim_trajectory h5 tag frame pre reverse = .error .lifecycleFault ∧
    td.create_template = .error .lifecycleFault := by
  refine ⟨?_, ?_, ?_, ?_, ?_, ?_, ?_, ?_⟩ <;>
    simp [TrackingData.append, TrackingData.get_flow_queues, TrackingData.all_done,
      TrackingData.iter_cameras, TrackingData.save_pixel_flow_trajectory,
      TrackingData.load_pixel_flow_trajectory, TrackingData.trim_trajectory,
      TrackingData.create_template, hctx]

/-- C5 witness: a released store rejects an append and a template creation. -/
theorem lifecycle_guard_witness :
    (TrackingData.mk [fqA] false ()).append fqB = .error .lifecycleFault ∧
    (TrackingData.mk [fqA] false ()).create_template = .error .lifecycleFault := by
  have h := lifecycle_guard (TrackingData.mk [fqA] false ()) (H5File.mk [] []) rfl
    fqB none none false none [] fqB none "xy" false "t0" 0 false
  exact ⟨h.1, h.2.2.2.2.2.2.2⟩

/-- C4: on an acquired store, saving a span-shaped array `A` for a record
whose path holds no dataset yet (with `size` given, mandatory in that case)
creates a dataset of `size` rows filled with the sentinel `(-1, -1)`, writes
`A` into the slice `[start_frame, end_frame)`, a matching load returns `A`
unchanged, rows outside the written span remain the sentinel — and every
shape mismatch (no size for a fresh path, a size disagreeing with an
existing dataset's length, span data with the wrong number of rows, or a
full-trajectory write of the wrong shape) fails with a validation
(assertion) fault. -/
theorem save_load_trajectory_spec (td : TrackingData) (h5 : H5File) (q : FlowQueue)
    (A : List (Int × Int)) (s : Int) (pre : String)
    (hctx : td.insideContext = true)
    (habsent : h5.findTraj (q.h5_directory ++ "/" ++ pre) = none)
    (hlenA : (A.length : Int) = q.end_frame - q.start_frame)
    (hs0 : 0 ≤ q.start_frame) (hse : q.start_frame ≤ q.end_frame)
    (hes : q.end_frame ≤ s) :
    (∃ h52, td.save_pixel_flow_trajectory h5 A q (some s) pre false = .ok h52 ∧
      td.load_pixel_flow_trajectory h52 q pre false = .ok A ∧
      ∃ dset, h52.findTraj (q.h5_directory ++ "/" ++ pre) = some dset ∧
        dset.length = s.toNat ∧
        (∀ i : Nat, i < A.length → dset[q.start_frame.toNat + i]? = A[i]?) ∧
        (∀ j : Nat, j < s.toNat →
          ((j : Int) < q.start_frame ∨ q.end_frame ≤ (j : Int)) →
          dset[j]? = some (-1, -1))) ∧
    (td.save_pixel_flow_trajectory h5 A q none pre false = .error .assertionFault) ∧
    (∀ (h5x : H5File) (dset : List (Int × Int)) (sz : Int),
      h5x.findTraj (q.h5_directory ++ "/" ++ pre) = some dset →
      (dset.length : Int) ≠ sz →
      td.save_pixel_flow_trajectory h5x A q (some sz) pre false = .error .assertionFault) ∧
    (∀ (h5x : H5File) (dset B : List (Int × Int)),
      h5x.findTraj (q.h5_directory ++ "/" ++ pre) = some dset →
      (B.length : Int) ≠ q.end_frame - q.start_frame →
      td.save_pixel_flow_trajectory h5x B q none pre false = .error .assertionFault) ∧
    (∀ (h5x : H5File) (dset B : List (Int × Int)),
      h5x.findTraj (q.h5_directory ++ "/" ++ pre) = some dset →
      B.length ≠ dset.length →
      td.save_pixel_flow_trajectory h5x B q none pre true = .error .assertionFault) := by
  have hs0' : (0 : Int) ≤ s := by omega
  have hrep : (List.replicate s.toNat ((-1 : Int), (-1 : Int))).length = s.toNat :=
    List.length_replicate _ _
  refine ⟨?_, ?_, ?_, ?_, ?_⟩
  · have hlo : sliceBound s.toNat q.start_frame = q.start_frame.toNat :=
      sliceBound_of_nonneg hs0 (by omega)
    have hhi : sliceBound s.toNat q.end_frame = q.end_frame.toNat :=
      sliceBound_of_nonneg (by omega) (by omega)
    obtain ⟨hdlen, hdlow, hdmid, hdhigh⟩ :=
      splice_getElem (List.replicate s.toNat ((-1 : Int), (-1 : Int))) A
        q.start_frame.toNat q.end_frame.toNat (by omega) (by rw [hrep]; omega)
        (by omega)
    have hws : writeSlice (List.replicate s.toNat ((-1 : Int), (-1 : Int)))
        q.start_frame q.end_frame A =
        .ok ((List.replicate s.toNat ((-1 : Int), (-1 : Int))).take q.start_frame.toNat
          ++ A ++
          (List.replicate s.toNat ((-1 : Int), (-1 : Int))).drop q.end_frame.toNat) := by
      unfold writeSlice
      rw [hrep, hlo, hhi, if_pos (by omega), max_eq_right (by omega)]
    have hraw : savePixelRaw h5 A q (some s) pre false =
        .ok (h5.setTraj (q.h5_directory ++ "/" ++ pre)
          ((List.replicate s.toNat ((-1 : Int), (-1 : Int))).take q.start_frame.toNat
            ++ A ++
            (List.replicate s.toNat ((-1 : Int), (-1 : Int))).drop q.end_frame.toNat)) := by
      unfold savePixelRaw
      rw [habsent]
      simp only [savePixelBody, Bool.false_eq_true, if_false]
      rw [if_neg (by omega), if_pos (by omega), hws]
    refine ⟨h5.setTraj (q.h5_directory ++ "/" ++ pre)
      ((List.replicate s.toNat ((-1 : Int), (-1 : Int))).take q.start_frame.toNat
        ++ A ++
        (List.replicate s.toNat ((-1 : Int), (-1 : Int))).drop q.end_frame.toNat),
      ?_, ?_, ?_⟩
    · unfold TrackingData.save_pixel_flow_trajectory
      rw [hctx]
      simp only [Bool.not_true, Bool.false_eq_true, if_false]
      exact hraw
    · unfold TrackingData.load_pixel_flow_trajectory
      rw [hctx]
      simp only [Bool.not_true, Bool.false_eq_true, if_false]
      unfold loadPixelRaw
      rw [findTraj_setTraj]
      simp only [Bool.false_eq_true, if_false]
      congr 1
      obtain ⟨hrl, hrg⟩ := readSlice_spec
        ((List.replicate s.toNat ((-1 : Int), (-1 : Int))).take q.start_frame.toNat
          ++ A ++
          (List.replicate s.toNat ((-1 : Int), (-1 : Int))).drop q.end_frame.toNat)
        q.start_frame q.end_frame hs0 hse (by rw [hdlen, hrep]; omega)
      apply List.ext_getElem?
      intro i
      by_cases hi : i < q.end_frame.toNat - q.start_frame.toNat
      · rw [hrg i hi, hdmid (q.start_frame.toNat + i) (by omega) (by omega)]
        congr 1
        omega
      · rw [List.getElem?_eq_none (by omega), List.getElem?_eq_none (by omega)]
    · refine ⟨_, findTraj_setTraj _ _ _, by rw [hdlen, hrep], ?_, ?_⟩
      · intro i hi
        rw [hdmid (q.start_frame.toNat + i) (by omega) (by omega)]
        congr 1
        omega
      · intro j hj hside
        rcases hside with hlt | hge
        · rw [hdlow j (by omega), List.getElem?_replicate_of_lt (by omega)]
        · rw [hdhigh j (by omega), List.getElem?_replicate_of_lt (by omega)]
  · unfold TrackingData.save_pixel_flow_trajectory
    rw [hctx]
    simp only [Bool.not_true, Bool.false_eq_true, if_false]
    unfold savePixelRaw
    rw [habsent]
  · intro h5x dset sz hfound hne
    unfold TrackingData.save_pixel_flow_trajectory
    rw [hctx]
    simp only [Bool.not_true, Bool.false_eq_true, if_false]
    unfold savePixelRaw
    rw [hfound]
    simp only []
    rw [if_neg hne]
  · intro h5x dset B hfound hne
    unfold TrackingData.save_pixel_flow_trajectory
    rw [hctx]
    simp only [Bool.not_true, Bool.false_eq_true, if_false]
    unfold savePixelRaw
    rw [hfound]
    simp only [savePixelBody, Bool.false_eq_true, if_false]
    rw [if_neg (fun h => hne (by omega))]
  · intro h5x dset B hfound hne
    unfold TrackingData.save_pixel_flow_trajectory
    rw [hctx]
    simp only [Bool.not_true, Bool.false_eq_true, if_false]
    unfold savePixelRaw
    rw [hfound]
    simp only [savePixelBody, if_true]
    rw [if_neg (fun h => hne h.symm)]

/-- C4 witness: a span `[1, 3)` write into a fresh size-4 dataset loads back
and leaves rows 0 and 3 at the sentinel. -/
theorem save_load_trajectory_witness :
    ∃ h52, (TrackingData.mk [fqA] true ()).save_pixel_flow_trajectory
        (H5File.mk [] []) [(7, 8), (9, 10)]
        (FlowQueue.mk (1, 1) 1 3 0 0 "m0" false) (some 4) "xy" false = .ok h52 ∧
      (TrackingData.mk [fqA] true ()).load_pixel_flow_trajectory h52
        (FlowQueue.mk (1, 1) 1 3 0 0 "m0" false) "xy" false = .ok [(7, 8), (9, 10)] := by
  obtain ⟨h52, hsave, hload, -⟩ :=
    (save_load_trajectory_spec (TrackingData.mk [fqA] true ()) (H5File.mk [] [])
      (FlowQueue.mk (1, 1) 1 3 0 0 "m0" false) [(7, 8), (9, 10)] 4 "xy"
      rfl rfl (by decide) (by decide) (by decide) (by decide)).1
  exact ⟨h52, hsave, hload⟩

/-- C8: the storage path depends only on camera, z_index and label (never on
point), and the tag only on z_index and label, so two records differing only
in `point` share both; consequently, writing one record's trajectory and
then the other's with `full_trajectory = True` overwrites the very same
dataset. -/
theorem storage_path_ignores_point (r1 r2 : FlowQueue)
    (hc : r1.camera = r2.camera) (hz : r1.z_index = r2.z_index)
    (hl : r1.label = r2.label) :
    r1.h5_directory = r2.h5_directory ∧ r1.get_tag = r2.get_tag ∧
    (∀ (td : TrackingData) (h51 : H5File) (pre : String) (d2 dset : List (Int × Int)),
      td.insideContext = true →
      h51.findTraj (r1.h5_directory ++ "/" ++ pre) = some dset →
      dset.length = d2.length →
      td.save_pixel_flow_trajectory h51 d2 r2 none pre true =
        .ok (h51.setTraj (r1.h5_directory ++ "/" ++ pre) d2) ∧
      (h51.setTraj (r1.h5_directory ++ "/" ++ pre) d2).findTraj
        (r1.h5_directory ++ "/" ++ pre) = some d2) := by
  have hdir : r1.h5_directory = r2.h5_directory := by
    unfold FlowQueue.h5_directory
    rw [hc, hz, hl]
  have htag : r1.get_tag = r2.get_tag := by
    unfold FlowQueue.get_tag
    rw [hz, hl]
  refine ⟨hdir, htag, ?_⟩
  intro td h51 pre d2 dset hctx hfound hlen
  rw [hdir] at hfound ⊢
  constructor
  · unfold TrackingData.save_pixel_flow_trajectory
    rw [hctx]
    simp only [Bool.not_true, Bool.false_eq_true, if_false]
    unfold savePixelRaw
    rw [hfound]
    simp only [savePixelBody, if_true]
    rw [if_pos hlen]
  · exact findTraj_setTraj _ _ _

/-- C8 witness: the two sample records that differ only in `point` share a
path, and a full write through the second lands at the first's path. -/
theorem storage_path_ignores_point_witness :
    fqA.h5_directory = fqB.h5_directory ∧
    (TrackingData.mk [fqA] true ()).save_pixel_flow_trajectory
        (H5File.mk [] [(fqB.h5_directory ++ "/" ++ "xy", [(0, 0)])]) [(5, 6)]
        fqB none "xy" true =
      .ok ((H5File.mk [] [(fqB.h5_directory ++ "/" ++ "xy", [(0, 0)])]).setTraj
        (fqB.h5_directory ++ "/" ++ "xy") [(5, 6)]) := by
  have h := storage_path_ignores_point fqA fqB rfl rfl rfl
  refine ⟨h.1, ?_⟩
  have h2 := (h.2.2 (TrackingData.mk [fqA] true ())
    (H5File.mk [] [(fqB.h5_directory ++ "/" ++ "xy", [(0, 0)])]) "xy" [(5, 6)] [(0, 0)]
    rfl (by rw [h.1]; rfl) rfl).1
  rw [h.1] at h2
  exact h2

/-- C1: on an acquired store whose matching queues are trim-ready,
`trim_trajectory(tag, frame, reverse)` with no matching record is a silent
no-op leaving every record and every trajectory dataset unchanged; when a
record matches (tag equal and `start_frame ≤ frame ≤ end_frame`), then for
the first such record, with `relative = frame - start_frame`: a forward trim
leaves its span's rows below `relative` unchanged, overwrites the rows at or
above `relative` with the sentinel `(-1, -1)`, persists them, and sets the
record's `end_frame = frame`; a reverse trim symmetrically blanks the rows
below `relative` and sets `start_frame = frame`. -/
theorem trim_trajectory_spec (td : TrackingData) (h5 : H5File) (tag : String)
    (frame : Int) (pre : String) (reverse : Bool)
    (hctx : td.insideContext = true)
    (hready : ∀ q ∈ td.queues, trimMatch tag frame q → trimReady h5 pre q) :
    ((∀ q ∈ td.queues, ¬trimMatch tag frame q) →
      td.trim_trajectory h5 tag frame pre reverse = .ok (td, h5)) ∧
    (∀ (qs1 : List FlowQueue) (q0 : FlowQueue) (qs2 : List FlowQueue),
      td.queues = qs1 ++ q0 :: qs2 →
      (∀ q ∈ qs1, ¬trimMatch tag frame q) →
      trimMatch tag frame q0 →
      ∃ td2 h52, td.trim_trajectory h5 tag frame pre reverse = .ok (td2, h52) ∧
        td2.queues[qs1.length]? =
          some (if reverse then { q0 with start_frame := frame }
            else { q0 with end_frame := frame }) ∧
        td2.queues.length = td.queues.length ∧
        ∃ dset dset2,
          h5.findTraj (q0.h5_directory ++ "/" ++ pre) = some dset ∧
          h52.findTraj (q0.h5_directory ++ "/" ++ pre) = some dset2 ∧
          dset2.length = dset.length ∧
          (∀ j : Nat,
            (if reverse then frame ≤ (j : Int) ∧ (j : Int) < q0.end_frame
             else q0.start_frame ≤ (j : Int) ∧ (j : Int) < frame) →
            dset2[j]? = dset[j]?) ∧
          (∀ j : Nat,
            (if reverse then q0.start_frame ≤ (j : Int) ∧ (j : Int) < frame
             else frame ≤ (j : Int) ∧ (j : Int) < q0.end_frame) →
            dset2[j]? = some (-1, -1))) := by
  constructor
  · intro hno
    unfold TrackingData.trim_trajectory
    rw [if_neg (by simp [hctx]), trimGo_nomatch tag frame pre reverse td.queues h5 hno]
  · intro qs1 q0 qs2 hsplit hpre1 hm0
    have hmem0 : q0 ∈ td.queues := by
      rw [hsplit]
      simp
    obtain ⟨hq0s, hq0se, dset, hfound, hdlen⟩ := hready q0 hmem0 hm0
    cases reverse with
    | false =>
      obtain ⟨dset2, hstep, hlen2, hkeep, hsent, hout⟩ :=
        trimStep_forward h5 frame pre q0 dset hq0s hfound hdlen hm0.2.1 hm0.2.2
      have hinv1 : trimInv frame false h5
          (h5.setTraj (q0.h5_directory ++ "/" ++ pre) dset2) :=
        trimInv_setTraj h5 _ dset dset2 frame false hfound hlen2 hkeep (by
          intro j hj hs
          by_cases hjb : (j : Int) < q0.end_frame
          · exact hsent j hj hjb
          · rw [hout j (by omega)]
            exact hs)
      have hmem2 : ∀ q ∈ qs2, q ∈ td.queues := by
        intro q hq
        rw [hsplit]
        simp [hq]
      obtain ⟨L2, h5y, hgo, hinv2, hlenL⟩ := trimGo_ok tag frame pre false qs2
        (h5.setTraj (q0.h5_directory ++ "/" ++ pre) dset2)
        (fun q hq hmq => trimReady_transport hinv1 pre q (hready q (hmem2 q hq) hmq))
      have hcall : td.trim_trajectory h5 tag frame pre false =
          .ok ({ td with queues := qs1 ++ { q0 with end_frame := frame } :: L2 },
            h5y) := by
        unfold TrackingData.trim_trajectory
        rw [if_neg (by simp [hctx])]
        rw [hsplit, trimGo_append_skip tag frame pre false qs1 (q0 :: qs2) h5 hpre1,
          trimGo_cons_match tag frame pre false q0 qs2 h5 hm0, hstep]
        simp only [hgo, Except.map]
      have hfin : ∃ dsetF, h5y.findTraj (q0.h5_directory ++ "/" ++ pre) = some dsetF ∧
          dsetF.length = dset2.length := by
        have hx := hinv2.1 (q0.h5_directory ++ "/" ++ pre)
        rw [findTraj_setTraj] at hx
        cases hb : h5y.findTraj (q0.h5_directory ++ "/" ++ pre) with
        | none => rw [hb] at hx; simp at hx
        | some dF =>
          rw [hb] at hx
          exact ⟨dF, rfl, by simpa using hx⟩
      obtain ⟨dsetF, hfinF, hlenF⟩ := hfin
      obtain ⟨hk2, hs2⟩ := hinv2.2 (q0.h5_directory ++ "/" ++ pre) dset2 dsetF
        (findTraj_setTraj _ _ _) hfinF
      refine ⟨{ td with queues := qs1 ++ { q0 with end_frame := frame } :: L2 },
        h5y, hcall, ?_, ?_, dset, dsetF, hfound, hfinF, by omega, ?_, ?_⟩
      · show (qs1 ++ { q0 with end_frame := frame } :: L2)[qs1.length]? =
          some { q0 with end_frame := frame }
        rw [List.getElem?_append_right (le_refl _), Nat.sub_self]
        simp
      · show (qs1 ++ { q0 with end_frame := frame } :: L2).length = td.queues.length
        rw [hsplit]
        simp [hlenL]
      · intro j hj
        have hj2 : q0.start_frame ≤ (j : Int) ∧ (j : Int) < frame := hj
        exact (hk2 j hj2.2).trans (hkeep j hj2.2)
      · intro j hj
        have hj2 : frame ≤ (j : Int) ∧ (j : Int) < q0.end_frame := hj
        exact hs2 j hj2.1 (hsent j hj2.1 hj2.2)
    | true =>
      obtain ⟨dset2, hstep, hlen2, hkeep, hsent, hout⟩ :=
        trimStep_reverse h5 frame pre q0 dset hq0s hfound hdlen hm0.2.1 hm0.2.2
      have hinv1 : trimInv frame true h5
          (h5.setTraj (q0.h5_directory ++ "/" ++ pre) dset2) :=
        trimInv_setTraj h5 _ dset dset2 frame true hfound hlen2 hkeep (by
          intro j hj hs
          by_cases hjb : q0.start_frame ≤ (j : Int)
          · exact hsent j hjb hj
          · rw [hout j (by omega)]
            exact hs)
      have hmem2 : ∀ q ∈ qs2, q ∈ td.queues := by
        intro q hq
        rw [hsplit]
        simp [hq]
      obtain ⟨L2, h5y, hgo, hinv2, hlenL⟩ := trimGo_ok tag frame pre true qs2
        (h5.setTraj (q0.h5_directory ++ "/" ++ pre) dset2)
        (fun q hq hmq => trimReady_transport hinv1 pre q (hready q (hmem2 q hq) hmq))
      have hcall : td.trim_trajectory h5 tag frame pre true =
          .ok ({ td with queues := qs1 ++ { q0 with start_frame := frame } :: L2 },
            h5y) := by
        unfold TrackingData.trim_trajectory
        rw [if_neg (by simp [hctx])]
        rw [hsplit, trimGo_append_skip tag frame pre true qs1 (q0 :: qs2) h5 hpre1,
          trimGo_cons_match tag frame pre true q0 qs2 h5 hm0, hstep]
        simp only [hgo, Except.map]
      have hfin : ∃ dsetF, h5y.findTraj (q0.h5_directory ++ "/" ++ pre) = some dsetF ∧
          dsetF.length = dset2.length := by
        have hx := hinv2.1 (q0.h5_directory ++ "/" ++ pre)
        rw [findTraj_setTraj] at hx
        cases hb : h5y.findTraj (q0.h5_directory ++ "/" ++ pre) with
        | none => rw [hb] at hx; simp at hx
        | some dF =>
          rw [hb] at hx
          exact ⟨dF, rfl, by simpa using hx⟩
      obtain ⟨dsetF, hfinF, hlenF⟩ := hfin
      obtain ⟨hk2, hs2⟩ := hinv2.2 (q0.h5_directory ++ "/" ++ pre) dset2 dsetF
        (findTraj_setTraj _ _ _) hfinF
      refine ⟨{ td with queues := qs1 ++ { q0 with start_frame := frame } :: L2 },
        h5y, hcall, ?_, ?_, dset, dsetF, hfound, hfinF, by omega, ?_, ?_⟩
      · show (qs1 ++ { q0 with start_frame := frame } :: L2)[qs1.length]? =
          some { q0 with start_frame := frame }
        rw [List.getElem?_append_right (le_refl _), Nat.sub_self]
        simp
      · show (qs1 ++ { q0 with start_frame := frame } :: L2).length = td.queues.length
        rw [hsplit]
        simp [hlenL]
      · intro j hj
        have hj2 : frame ≤ (j : Int) ∧ (j : Int) < q0.end_frame := hj
        exact (hk2 j hj2.1).trans (hkeep j hj2.1)
      · intro j hj
        have hj2 : q0.start_frame ≤ (j : Int) ∧ (j : Int) < frame := hj
        exact hs2 j hj2.2 (hsent j hj2.1 hj2.2)

/-- C1 witness: trimming the sample record (span `[10, 50]`, tag `z1-m1`)
forward at frame 30 moves its `end_frame` to 30, blanks row 35 of its
dataset to the sentinel, and leaves row 20 as it was. -/
theorem trim_trajectory_witness :
    ∃ td2 h52, (TrackingData.mk [fqC] true ()).trim_trajectory
        (H5File.mk [] [(fqC.h5_directory ++ "/" ++ "xy", List.replicate 50 (5, 5))])
        "z1-m1" 30 "xy" false = .ok (td2, h52) ∧
      td2.queues[0]? = some (FlowQueue.mk (2, 3) 10 30 2 1 "m1" true) ∧
      ∃ dset2, h52.findTraj (fqC.h5_directory ++ "/" ++ "xy") = some dset2 ∧
        dset2[35]? = some (-1, -1) ∧ dset2[20]? = some (5, 5) := by
  have hready : ∀ q ∈ (TrackingData.mk [fqC] true ()).queues,
      trimMatch "z1-m1" 30 q → trimReady
        (H5File.mk [] [(fqC.h5_directory ++ "/" ++ "xy", List.replicate 50 (5, 5))])
        "xy" q := by
    intro q hq _
    have hq2 : q = fqC := by simpa using hq
    subst hq2
    exact ⟨by decide, by decide, List.replicate 50 (5, 5), rfl, by decide⟩
  obtain ⟨td2, h52, hcall, hget, -, dset, dset2, hfound, hfin, -, hkeep, hsent⟩ :=
    (trim_trajectory_spec (TrackingData.mk [fqC] true ())
      (H5File.mk [] [(fqC.h5_directory ++ "/" ++ "xy", List.replicate 50 (5, 5))])
      "z1-m1" 30 "xy" false rfl hready).2 [] fqC [] rfl (by simp) (by decide)
  have hdset : dset = List.replicate 50 (5, 5) := by
    have hr : (H5File.mk [] [(fqC.h5_directory ++ "/" ++ "xy",
        List.replicate 50 (5, 5))]).findTraj (fqC.h5_directory ++ "/" ++ "xy") =
        some (List.replicate 50 (5, 5)) := rfl
    rw [hr] at hfound
    exact (Option.some_inj.mp hfound).symm
  refine ⟨td2, h52, hcall, hget, dset2, hfin, ?_, ?_⟩
  · exact hsent 35 ⟨by decide, by decide⟩
  · rw [hkeep 20 ⟨by decide, by decide⟩, hdset]
    decide

/-- C10 witness: an eleven-character ASCII label does not survive the row
round trip. -/
theorem label_truncation_witness :
    ∃ q2, (FlowQueue.toRow ⟨(1, 1), 0, 10, 0, 0, "elevenchars", false⟩ >>=
        FlowQueue.fromRow) = .ok q2 ∧
      q2 ≠ ⟨(1, 1), 0, 10, 0, 0, "elevenchars", false⟩ := by
  obtain ⟨-, -, r, hr, -, -, q2, hq2, -, hne⟩ :=
    label_truncation ⟨(1, 1), 0, 10, 0, 0, "elevenchars", false⟩
      (by decide) (by decide) (by decide)
  exact ⟨q2, by rw [hr, except_ok_bind, hq2], hne⟩

end BR2
